import Mathlib

/-!
Verification of the common-module repository: a shallow embedding of its
object-transform primitives (CLONE, MERGE, ITERATE, GET_VALUE,
GET_OBJECT_PARAM, CONVERT_DOT_TO_OBJECT from the utils file) and of the
useNavigable composable (navigate, onPageChange, onLimitChange, onSort and
the private _generateQueryParams/_navigate), together with theorems that
check the specification's claims against these definitions.

JavaScript runtime values are modelled by the inductive type JSValue.
Container values carry a numeric identity (an address stand-in) so that
reference identity and aliasing-free mutation can be stated; all other
semantics follow the source code.  The source is an ES module, hence
strict mode: assigning a property to a primitive throws a TypeError, which
the embedding models with Except.
-/

inductive JSValue where
  | vNull
  | vUndef
  | vBool (b : Bool)
  | vNum (n : Int)
  | vStr (s : String)
  | vArr (id : Nat) (elems : List JSValue)
  | vObj (id : Nat) (fields : List (String × JSValue))
  | vDate (id : Nat) (time : Int)
  | vRegExp (id : Nat) (srcPat flags : String)
  | vFile (id : Nat)
  | vFileList (id : Nat)
deriving Repr, Inhabited

open JSValue

/-- JavaScript truthiness.  NaN is not modelled (numbers are integers). -/
def truthy : JSValue → Bool
  | vNull => false
  | vUndef => false
  | vBool b => b
  | vNum n => n != 0
  | vStr s => s != ""
  | _ => true

/-- The JavaScript test value instanceof Object: true for every
non-primitive value. -/
def isObjectInstance : JSValue → Bool
  | vArr _ _ => true
  | vObj _ _ => true
  | vDate _ _ => true
  | vRegExp _ _ _ => true
  | vFile _ => true
  | vFileList _ => true
  | _ => false

/-- Modelled from the spec: IS_DEFINED comes from the repository's
check.functions file, which is not among the sources.  Per the spec's
reading of GET_VALUE ("missing" values and the guard before calling
toString), a value is defined when it is neither undefined nor null. -/
def IS_DEFINED : JSValue → Bool
  | vUndef => false
  | vNull => false
  | _ => true

/-- Modelled from the spec: IS_OBJECT comes from the repository's
check.functions file, which is not among the sources.  Per the spec,
ITERATE distinguishes "a mapping" (IS_OBJECT) from "a sequence"
(Array.isArray), and GET_OBJECT_PARAM applies to "a mapping"; so
IS_OBJECT holds exactly for plain mappings. -/
def IS_OBJECT : JSValue → Bool
  | vObj _ _ => true
  | _ => false

def isJsWhitespace (c : Char) : Bool :=
  c == ' ' || c == '\t' || c == '\n' || c == '\r'

/-- Modelled from the spec: TRIM comes from the repository's
modify-string.functions file, which is not among the sources.  Per the
spec ("empty/whitespace-only after trimming"), it removes leading and
trailing whitespace. -/
def TRIM (s : String) : String :=
  String.mk (((s.data.dropWhile isJsWhitespace).reverse.dropWhile isJsWhitespace).reverse)

def lookupField : List (String × JSValue) → String → Option JSValue
  | [], _ => none
  | (k, v) :: rest, key => if k = key then some v else lookupField rest key

/-- Property update on a field list: an existing key keeps its position,
a new key is appended — matching JavaScript property-assignment order. -/
def setField : List (String × JSValue) → String → JSValue → List (String × JSValue)
  | [], key, v => [(key, v)]
  | (k, w) :: rest, key, v =>
      if k = key then (k, v) :: rest else (k, w) :: setField rest key v

def removeField : List (String × JSValue) → String → List (String × JSValue)
  | [], _ => []
  | (k, w) :: rest, key =>
      if k = key then rest else (k, w) :: removeField rest key

/-- Property read item[key].  Prototype-inherited properties (e.g. array
length, string indices) are not modelled; the claims never read them. -/
def getProp : JSValue → String → JSValue
  | vObj _ fs, key => (lookupField fs key).getD vUndef
  | vArr _ xs, key =>
      match key.toNat? with
      | some i => xs.getD i vUndef
      | none => vUndef
  | _, _ => vUndef

def listStartsWith : List Char → List Char → Bool
  | [], _ => true
  | _ :: _, [] => false
  | c :: cr, d :: dr => c == d && listStartsWith cr dr

def jsSplitGo (sep : List Char) : Nat → List Char → List Char → List (List Char)
  | 0, acc, rest => [acc.reverse ++ rest]
  | f + 1, acc, rest =>
      if sep ≠ [] ∧ listStartsWith sep rest then
        acc.reverse :: jsSplitGo sep f [] (rest.drop sep.length)
      else
        match rest with
        | [] => [acc.reverse]
        | c :: rs => jsSplitGo sep f (c :: acc) rs

/-- The JavaScript call s.split(sep) for a non-empty separator (every use
in the sources passes "." or "#").  Implemented over character lists so
that concrete instances evaluate in the kernel. -/
def jsSplit (s sep : String) : List String :=
  if sep.data = [] then [s]
  else (jsSplitGo sep.data (s.data.length + 1) [] s.data).map String.mk

/-- The JavaScript call s.includes(c) for a single-character needle (the
only form the sources use: key.includes(".")). -/
def jsIncludesChar (s : String) (c : Char) : Bool :=
  s.data.any (fun d => d == c)

mutual
/-- Stringification value.toString() as the sources rely on it.  Arrays
join their elements with commas (null/undefined become empty); plain
objects give "[object Object]".  A date renders as an opaque non-empty
string (the exact locale format is irrelevant to the claims). -/
def jsToString : JSValue → String
  | vNull => "null"
  | vUndef => "undefined"
  | vBool b => if b then "true" else "false"
  | vNum n => toString n
  | vStr s => s
  | vArr _ xs => String.intercalate "," (jsToStringElems xs)
  | vObj _ _ => "[object Object]"
  | vDate _ t => "Date:" ++ toString t
  | vRegExp _ p f => "/" ++ p ++ "/" ++ f
  | vFile _ => "[object File]"
  | vFileList _ => "[object FileList]"
termination_by x => sizeOf x

def jsToStringElems : List JSValue → List String
  | [] => []
  | x :: rest =>
      (match x with
       | vNull => ""
       | vUndef => ""
       | y => jsToString y) :: jsToStringElems rest
termination_by xs => sizeOf xs
end

/-- Truthiness of an optional string argument (JavaScript: undefined and
the empty string are both falsy). -/
def optTruthy : Option String → Bool
  | some s => s != ""
  | none => false

/-- One step of the reduce in GET_VALUE: accum && accum[curr] keeps a
falsy accumulator and otherwise reads the property. -/
def walkStep (acc : JSValue) (cur : String) : JSValue :=
  if truthy acc then getProp acc cur else acc

def walkPath (item : JSValue) (segs : List String) : JSValue :=
  segs.foldl walkStep item

/-- GET_VALUE from the utils source: resolve a value by walking path
split on delimiter, optionally index by name, and filter the result
through the defined/non-blank check on its string form. -/
def GET_VALUE (item : JSValue) (name path : Option String)
    (delimiter : String := ".") : JSValue :=
  let value :=
    if truthy item then
      if optTruthy path then
        let v := walkPath item (jsSplit (path.getD "") delimiter)
        if truthy v && optTruthy name then getProp v (name.getD "") else v
      else
        if optTruthy name && IS_DEFINED (getProp item (name.getD "")) then
          getProp item (name.getD "")
        else vUndef
    else vUndef
  if IS_DEFINED value && (TRIM (jsToString value)).length != 0 then value else vUndef

/-- GET_OBJECT_PARAM from the utils source: mappings are routed through
GET_VALUE with an empty name, everything else passes through verbatim. -/
def GET_OBJECT_PARAM (item : JSValue) (path : Option String)
    (delimiter : String := ".") : JSValue :=
  if IS_OBJECT item then GET_VALUE item (some "") path delimiter else item


/-- Contents of a JavaScript property assignment base[key] = v.  In an ES
module (strict mode) assigning a property to a primitive — or to null or
undefined — throws a TypeError, modelled as an error.  Attaching extra
properties to dates, regexps or files is not representable in the value
model; those cases are unreached under the theorems below. -/
def setProp : JSValue → String → JSValue → Except String JSValue
  | vObj i fs, k, v => .ok (vObj i (setField fs k v))
  | vArr i xs, k, v =>
      .ok (match k.toNat? with
           | some idx => vArr i (xs.set idx v)
           | none => vArr i xs)
  | vDate i t, _, _ => .ok (vDate i t)
  | vRegExp i p f, _, _ => .ok (vRegExp i p f)
  | vFile i, _, _ => .ok (vFile i)
  | vFileList i, _, _ => .ok (vFileList i)
  | vNull, _, _ => .error "TypeError: cannot set properties of null"
  | vUndef, _, _ => .error "TypeError: cannot set properties of undefined"
  | _, _, _ => .error "TypeError: cannot create property on a primitive"

/-- Pure field update on a value known to be a plain object (used where
the source assigns into an object it just created or checked). -/
def objSet (o : JSValue) (k : String) (v : JSValue) : JSValue :=
  match o with
  | vObj i fs => vObj i (setField fs k v)
  | x => x

def isArray : JSValue → Bool
  | vArr _ _ => true
  | _ => false

/-- Own enumerable string-keyed entries, as Object.keys/for-in sees them:
object fields in insertion order, array indices, string character
indices; dates, regexps and files have none. -/
def ownEntries : JSValue → List (String × JSValue)
  | vObj _ fs => fs
  | vArr _ xs => ((List.range xs.length).zip xs).map (fun p => (toString p.fst, p.snd))
  | vStr s => ((List.range s.length).zip s.data).map (fun p => (toString p.fst, vStr (String.mk [p.snd])))
  | _ => []

/-- The entries ITERATE(item, cb) visits: own entries when the guard
item && (IS_OBJECT(item) || Array.isArray(item)) holds, none otherwise.
Callers in the sources fold over these entries. -/
def iterEntries (item : JSValue) : List (String × JSValue) :=
  if truthy item && (IS_OBJECT item || isArray item) then ownEntries item else []

def jsonEscapeChar (c : Char) : String :=
  if c = '"' then "\\\""
  else if c = '\\' then "\\\\"
  else if c = '\n' then "\\n"
  else if c = '\t' then "\\t"
  else if c = '\r' then "\\r"
  else String.mk [c]

def jsonQuote (s : String) : String :=
  "\"" ++ String.join (s.data.map jsonEscapeChar) ++ "\""

mutual
/-- JSON.stringify, returning none exactly where JavaScript returns
undefined (an undefined input).  Undefined-valued object entries are
dropped, undefined array elements serialize as null; regexps and file
handles have no own enumerable properties and give "\x7b\x7d"; a date
serializes via its toJSON to an opaque quoted string. -/
def jsonStringify? : JSValue → Option String
  | vNull => some "null"
  | vUndef => none
  | vBool b => some (if b then "true" else "false")
  | vNum n => some (toString n)
  | vStr s => some (jsonQuote s)
  | vArr _ xs => some ("[" ++ String.intercalate "," (jsonElems xs) ++ "]")
  | vObj _ fs => some ("\x7b" ++ String.intercalate "," (jsonMembers fs) ++ "\x7d")
  | vDate _ t => some (jsonQuote ("Date:" ++ toString t))
  | vRegExp _ _ _ => some "\x7b\x7d"
  | vFile _ => some "\x7b\x7d"
  | vFileList _ => some "\x7b\x7d"
termination_by x => sizeOf x

def jsonElems : List JSValue → List String
  | [] => []
  | x :: rest => ((jsonStringify? x).getD "null") :: jsonElems rest
termination_by xs => sizeOf xs

def jsonMembers : List (String × JSValue) → List String
  | [] => []
  | (k, v) :: rest =>
      match jsonStringify? v with
      | some s => (jsonQuote k ++ ":" ++ s) :: jsonMembers rest
      | none => jsonMembers rest
termination_by fs => sizeOf fs
end

def skipWs : List Char → List Char
  | [] => []
  | c :: rest => if isJsWhitespace c then skipWs rest else c :: rest

def parseJsonStringGo : List Char → List Char → Except String (String × List Char)
  | _, [] => .error "unterminated string"
  | acc, '"' :: rest => .ok (String.mk acc.reverse, rest)
  | acc, '\\' :: c :: rest =>
      if c = '"' then parseJsonStringGo ('"' :: acc) rest
      else if c = '\\' then parseJsonStringGo ('\\' :: acc) rest
      else if c = '/' then parseJsonStringGo ('/' :: acc) rest
      else if c = 'n' then parseJsonStringGo ('\n' :: acc) rest
      else if c = 't' then parseJsonStringGo ('\t' :: acc) rest
      else if c = 'r' then parseJsonStringGo ('\r' :: acc) rest
      else .error "unsupported escape"
  | acc, c :: rest => parseJsonStringGo (c :: acc) rest

def parseDigits : List Char → List Char → (List Char × List Char)
  | acc, [] => (acc.reverse, [])
  | acc, c :: rest => if c.isDigit then parseDigits (c :: acc) rest else (acc.reverse, c :: rest)

def digitsToNat (ds : List Char) : Nat :=
  ds.foldl (fun a c => a * 10 + (c.toNat - 48)) 0

def startsNonInteger : List Char → Bool
  | c :: _ => c = '.' || c = 'e' || c = 'E'
  | [] => false

mutual
/-- Recursive-descent JSON parser (fuel-indexed so that recursion is
structural and concrete instances evaluate in the kernel).  The number
grammar is restricted to integers: the codec claims only involve integer
numerals, and a fractional or exponent part is rejected rather than
misread. -/
def parseJsonVal : Nat → List Char → Except String (JSValue × List Char)
  | 0, _ => .error "out of fuel"
  | f + 1, cs =>
      match skipWs cs with
      | 'n' :: 'u' :: 'l' :: 'l' :: rest => .ok (vNull, rest)
      | 't' :: 'r' :: 'u' :: 'e' :: rest => .ok (vBool true, rest)
      | 'f' :: 'a' :: 'l' :: 's' :: 'e' :: rest => .ok (vBool false, rest)
      | '"' :: rest =>
          (match parseJsonStringGo [] rest with
           | .ok (s, rest2) => .ok (vStr s, rest2)
           | .error e => .error e)
      | '[' :: rest =>
          (match skipWs rest with
           | ']' :: rest2 => .ok (vArr 0 [], rest2)
           | _ =>
              match parseJsonItems f (skipWs rest) with
              | .ok (xs, rest2) => .ok (vArr 0 xs, rest2)
              | .error e => .error e)
      | '\x7b' :: rest =>
          (match skipWs rest with
           | '\x7d' :: rest2 => .ok (vObj 0 [], rest2)
           | _ =>
              match parseJsonMembers f (skipWs rest) with
              | .ok (fs, rest2) => .ok (vObj 0 fs, rest2)
              | .error e => .error e)
      | '-' :: rest =>
          (match parseDigits [] rest with
           | ([], _) => .error "bad number"
           | (ds, rest2) =>
              if startsNonInteger rest2 then .error "non-integer number not modelled"
              else .ok (vNum (-(Int.ofNat (digitsToNat ds))), rest2))
      | c :: rest =>
          if c.isDigit then
            match parseDigits [] (c :: rest) with
            | (ds, rest2) =>
                if startsNonInteger rest2 then .error "non-integer number not modelled"
                else .ok (vNum (Int.ofNat (digitsToNat ds)), rest2)
          else .error "unexpected character"
      | [] => .error "unexpected end of input"

def parseJsonItems : Nat → List Char → Except String (List JSValue × List Char)
  | 0, _ => .error "out of fuel"
  | f + 1, cs =>
      match parseJsonVal f cs with
      | .error e => .error e
      | .ok (v, rest) =>
          match skipWs rest with
          | ',' :: rest2 =>
              (match parseJsonItems f rest2 with
               | .ok (xs, rest3) => .ok (v :: xs, rest3)
               | .error e => .error e)
          | ']' :: rest2 => .ok ([v], rest2)
          | _ => .error "expected comma or closing bracket"

def parseJsonMembers : Nat → List Char → Except String (List (String × JSValue) × List Char)
  | 0, _ => .error "out of fuel"
  | f + 1, cs =>
      match skipWs cs with
      | '"' :: rest =>
          (match parseJsonStringGo [] rest with
           | .error e => .error e
           | .ok (k, rest2) =>
              match skipWs rest2 with
              | ':' :: rest3 =>
                  (match parseJsonVal f rest3 with
                   | .error e => .error e
                   | .ok (v, rest4) =>
                      match skipWs rest4 with
                      | ',' :: rest5 =>
                          (match parseJsonMembers f rest5 with
                           | .ok (fs, rest6) => .ok ((k, v) :: fs, rest6)
                           | .error e => .error e)
                      | '\x7d' :: rest5 => .ok ([(k, v)], rest5)
                      | _ => .error "expected comma or closing brace")
              | _ => .error "expected colon")
      | _ => .error "expected member key"
end

/-- JSON.parse: parse one value and require only whitespace to remain. -/
def JSONParse (s : String) : Except String JSValue :=
  match parseJsonVal (2 * s.data.length + 2) s.data with
  | .ok (v, rest) => if skipWs rest = [] then .ok v else .error "unexpected trailing characters"
  | .error e => .error e

/-- Step 1 of _generateQueryParams: copy the current query, JSON-parsing
string values; a value that fails to parse is logged and dropped. -/
def gqpStep1 (routeQuery : JSValue) : JSValue :=
  (iterEntries routeQuery).foldl
    (fun acc kv =>
      match kv.snd with
      | vStr s =>
          match JSONParse s with
          | .ok v => objSet acc kv.fst v
          | .error _ => acc
      | v => objSet acc kv.fst v)
    (vObj 0 [])

/-- Step 2: queryParams[syscode] = queryParams[syscode] || an empty
object (reassigning an already-truthy entry leaves its content as is). -/
def gqpStep2 (qp : JSValue) (syscode : String) : JSValue :=
  if truthy (getProp qp syscode) then qp else objSet qp syscode (vObj 0 [])

/-- Step 3: if (config) copy each of its own entries into the syscode
namespace; queryParams[syscode][key] = value can throw when the
namespace entry is a truthy primitive. -/
def gqpStep3 (qp : JSValue) (syscode : String) (config : JSValue) : Except String JSValue :=
  if truthy config then
    (iterEntries config).foldlM
      (fun acc kv =>
        match setProp (getProp acc syscode) kv.fst kv.snd with
        | .ok sub => .ok (objSet acc syscode sub)
        | .error e => .error e)
      qp
  else .ok qp

/-- The object literal of step 4: page and limit read through optional
chaining, so an absent pagination argument yields undefined entries. -/
def paginationPair (pagination : JSValue) : JSValue :=
  vObj 0 [("page", getProp pagination "page"), ("limit", getProp pagination "limit")]

/-- Step 4: queryParams[syscode].pagination is set unconditionally from
the pagination argument. -/
def gqpStep4 (qp : JSValue) (syscode : String) (pagination : JSValue) : Except String JSValue :=
  match setProp (getProp qp syscode) "pagination" (paginationPair pagination) with
  | .ok sub => .ok (objSet qp syscode sub)
  | .error e => .error e

/-- Step 5: serialize every top-level value with JSON.stringify (an
undefined stringification leaves an undefined entry). -/
def gqpStep5 (qp : JSValue) : JSValue :=
  match qp with
  | vObj i fs =>
      vObj i (fs.map (fun kv => (kv.fst,
        match jsonStringify? kv.snd with
        | some s => vStr s
        | none => vUndef)))
  | x => x

/-- The private _generateQueryParams of useNavigable, with the ambient
route.query passed explicitly as routeQuery. -/
def generateQueryParams (routeQuery : JSValue) (syscode : String)
    (pagination : JSValue) (config : JSValue) : Except String JSValue :=
  match gqpStep3 (gqpStep2 (gqpStep1 routeQuery) syscode) syscode config with
  | .error e => .error e
  | .ok qp =>
      match gqpStep4 qp syscode pagination with
      | .error e => .error e
      | .ok qp2 => .ok (gqpStep5 qp2)

/-- Modelled from the spec: the pagination part of IConfig (the config
interface file is not among the sources).  Page and limit are integers,
each possibly absent. -/
structure IPagination where
  page : Option Int := none
  limit : Option Int := none
deriving Repr, DecidableEq

/-- Modelled from the spec: IConfig (the config interface file is not
among the sources) — syscode, pagination, sort and the opaque forwarded
fields, every field optional. -/
structure IConfig where
  syscode : Option String := none
  pagination : Option IPagination := none
  sort : Option JSValue := none
  cols : Option JSValue := none
  displayFields : Option JSValue := none
  panel : Option JSValue := none
  tab : Option JSValue := none
  fix : Option JSValue := none
  mode : Option JSValue := none
deriving Repr

/-- State owned by useNavigable: the single-slot queue ref holding the
arguments of the most recent navigate call. -/
structure NavState where
  queue : Option (IConfig × Option IConfig) := none
deriving Repr

/-- Truthiness of config?.syscode (undefined and "" are falsy). -/
def configSyscodeTruthy (c : IConfig) : Bool :=
  match c.syscode with
  | some s => s != ""
  | none => false

/-- navigate(...params): unconditionally overwrite the queue ref with the
new argument pair; the debounced watcher flushes it later. -/
def navigate (config : IConfig) (params : Option IConfig) (_st : NavState) : NavState :=
  ⟨some (config, params)⟩

/-- onPageChange from the source.  When config.pagination is absent, the
expression config.pagination || an empty object creates a fresh detached
object; the page write lands on it and is discarded.  The scrollTo branch
only touches the DOM and is outside the model. -/
def onPageChange (config : IConfig) (value : Int) (st : NavState) : IConfig × NavState :=
  if configSyscodeTruthy config then
    match config.pagination with
    | some p =>
        let config2 := { config with pagination := some { p with page := some value } }
        (config2, navigate config2 none st)
    | none => (config, navigate config none st)
  else (config, st)

/-- onLimitChange from the source: set limit, reset page to 1, navigate;
same detached-object behaviour when pagination is absent. -/
def onLimitChange (config : IConfig) (value : Int) (st : NavState) : IConfig × NavState :=
  if configSyscodeTruthy config then
    match config.pagination with
    | some p =>
        let config2 := { config with pagination := some { p with limit := some value, page := some 1 } }
        (config2, navigate config2 none st)
    | none => (config, navigate config none st)
  else (config, st)

/-- onSort from the source: normalize the sort descriptor and navigate. -/
def onSort (config : IConfig) (value : List JSValue) (st : NavState) : IConfig × NavState :=
  if configSyscodeTruthy config then
    let sortVal : JSValue :=
      match value.head? with
      | some (vArr _ _) => vArr 0 value
      | some _ => vArr 0 [vArr 0 value]
      | none => vArr 0 []
    let config2 := { config with sort := some sortVal }
    (config2, navigate config2 none st)
  else (config, st)

def encodePagination (p : IPagination) : JSValue :=
  vObj 0 ((match p.page with
           | some n => [("page", vNum n)]
           | none => []) ++
          (match p.limit with
           | some n => [("limit", vNum n)]
           | none => []))

def jsOpt : Option JSValue → JSValue
  | some v => v
  | none => vUndef

/-- Encoding of an IConfig as the plain object the runtime sees: only
fields that are actually set become own keys. -/
def encodeIConfig (c : IConfig) : JSValue :=
  vObj 0 ((match c.syscode with | some s => [("syscode", vStr s)] | none => []) ++
          (match c.pagination with | some p => [("pagination", encodePagination p)] | none => []) ++
          (match c.sort with | some v => [("sort", v)] | none => []) ++
          (match c.cols with | some v => [("cols", v)] | none => []) ++
          (match c.displayFields with | some v => [("displayFields", v)] | none => []) ++
          (match c.panel with | some v => [("panel", v)] | none => []) ++
          (match c.tab with | some v => [("tab", v)] | none => []) ++
          (match c.fix with | some v => [("fix", v)] | none => []) ++
          (match c.mode with | some v => [("mode", v)] | none => []))

/-- The configParams object _navigate builds: CLONE(params) || an empty
object (the encoding is itself the fresh copy in the tree model), then
the seven explicit field writes — each creates its key even when the
config field is undefined. -/
def buildConfigParams (config : IConfig) (params : Option IConfig) : JSValue :=
  let base := match params with
    | some p => encodeIConfig p
    | none => vObj 0 []
  objSet (objSet (objSet (objSet (objSet (objSet (objSet base
    "sort" (jsOpt config.sort))
    "cols" (jsOpt config.cols))
    "displayFields" (jsOpt config.displayFields))
    "panel" (jsOpt config.panel))
    "tab" (jsOpt config.tab))
    "fix" (jsOpt config.fix))
    "mode" (jsOpt config.mode)

/-- The navigation the flush would commit: navigateTo with the self path,
the generated query, and history-replace mode. -/
structure NavAction where
  path : String
  query : JSValue
  replace : Bool
deriving Repr

/-- The private _navigate of useNavigable: a no-op (no navigation, query
state untouched) unless config.syscode is truthy. -/
def flushNavigate (routeQuery : JSValue) (selfPath : String)
    (config : IConfig) (params : Option IConfig) : Except String (Option NavAction) :=
  if configSyscodeTruthy config then
    match generateQueryParams routeQuery (config.syscode.getD "")
        (match config.pagination with
         | some p => encodePagination p
         | none => vObj 0 [])
        (buildConfigParams config params) with
    | .ok query => .ok (some ⟨selfPath, query, true⟩)
    | .error e => .error e
  else .ok none

def debounceWindow : Nat := 400

/-- Modelled from the spec: useDebounceFn from the external vueuse
library is a trailing-edge debounce with a fixed 400 ms window.  Given
the time-stamped queue writes (ascending times), a write flushes at
t + window exactly when no further write arrives strictly inside its
window; a later write inside the window supersedes it and restarts the
timer. -/
def debounceFlushes {A : Type} : List (Nat × A) → List (Nat × A)
  | [] => []
  | (t, a) :: rest =>
      match rest with
      | [] => [(t + debounceWindow, a)]
      | (t2, _) :: _ =>
          if t2 < t + debounceWindow then debounceFlushes rest
          else (t + debounceWindow, a) :: debounceFlushes rest

/-- The calls are ascending in time and each one lands strictly inside
the debounce window of its predecessor. -/
def rapidCalls {A : Type} : List (Nat × A) → Bool
  | [] => true
  | [_] => true
  | (t1, _) :: (t2, a2) :: rest =>
      (t1 ≤ t2 && t2 < t1 + debounceWindow) && rapidCalls ((t2, a2) :: rest)



mutual
/-- CLONE from the utils source: primitives return unchanged, arrays map
CLONE over their elements, dates and regexps get fresh instances with
equal content, File and FileList handles are returned by reference
(identity preserved), and plain objects are cloned own-key by own-key.
Fresh identities for the copies are drawn from a counter threaded through
the traversal. -/
def cloneSt : JSValue → Nat → JSValue × Nat
  | vNull, n => (vNull, n)
  | vUndef, n => (vUndef, n)
  | vBool b, n => (vBool b, n)
  | vNum m, n => (vNum m, n)
  | vStr s, n => (vStr s, n)
  | vArr _ xs, n =>
      let p := cloneList xs (n + 1)
      (vArr n p.fst, p.snd)
  | vObj _ fs, n =>
      let p := cloneFields fs (n + 1)
      (vObj n p.fst, p.snd)
  | vDate _ t, n => (vDate n t, n + 1)
  | vRegExp _ sp fl, n => (vRegExp n sp fl, n + 1)
  | vFile i, n => (vFile i, n)
  | vFileList i, n => (vFileList i, n)
termination_by x => sizeOf x

def cloneList : List JSValue → Nat → List JSValue × Nat
  | [], n => ([], n)
  | x :: rest, n =>
      let p := cloneSt x n
      let q := cloneList rest p.snd
      (p.fst :: q.fst, q.snd)
termination_by xs => sizeOf xs

def cloneFields : List (String × JSValue) → Nat → List (String × JSValue) × Nat
  | [], n => ([], n)
  | (k, v) :: rest, n =>
      let p := cloneSt v n
      let q := cloneFields rest p.snd
      ((k, p.fst) :: q.fst, q.snd)
termination_by fs => sizeOf fs
end

mutual
/-- Largest identity occurring in a value (0 when none). -/
def maxId : JSValue → Nat
  | vArr i xs => max i (maxIdList xs)
  | vObj i fs => max i (maxIdFields fs)
  | vDate i _ => i
  | vRegExp i _ _ => i
  | vFile i => i
  | vFileList i => i
  | _ => 0
termination_by x => sizeOf x

def maxIdList : List JSValue → Nat
  | [] => 0
  | x :: rest => max (maxId x) (maxIdList rest)
termination_by xs => sizeOf xs

def maxIdFields : List (String × JSValue) → Nat
  | [] => 0
  | (_, v) :: rest => max (maxId v) (maxIdFields rest)
termination_by fs => sizeOf fs
end

/-- CLONE applied with a supply of identities fresh for its argument. -/
def CLONE (x : JSValue) : JSValue := (cloneSt x (maxId x + 1)).fst

mutual
/-- Erase identities (deep content equality is equality of erasures).
File and FileList handles keep their identity: for an external resource
the identity is the content. -/
def stripIds : JSValue → JSValue
  | vObj _ fs => vObj 0 (stripFields fs)
  | vArr _ xs => vArr 0 (stripList xs)
  | vDate _ t => vDate 0 t
  | vRegExp _ p f => vRegExp 0 p f
  | x => x
termination_by x => sizeOf x

def stripList : List JSValue → List JSValue
  | [] => []
  | x :: r => stripIds x :: stripList r
termination_by xs => sizeOf xs

def stripFields : List (String × JSValue) → List (String × JSValue)
  | [] => []
  | (k, v) :: r => (k, stripIds v) :: stripFields r
termination_by fs => sizeOf fs
end

mutual
/-- Identities of every container node (including special resources). -/
def allIds : JSValue → List Nat
  | vObj i fs => i :: allIdsFields fs
  | vArr i xs => i :: allIdsList xs
  | vDate i _ => [i]
  | vRegExp i _ _ => [i]
  | vFile i => [i]
  | vFileList i => [i]
  | _ => []
termination_by x => sizeOf x

def allIdsList : List JSValue → List Nat
  | [] => []
  | x :: r => allIds x ++ allIdsList r
termination_by xs => sizeOf xs

def allIdsFields : List (String × JSValue) → List Nat
  | [] => []
  | (_, v) :: r => allIds v ++ allIdsFields r
termination_by fs => sizeOf fs
end

mutual
/-- Identities of the plain-object nodes (the mutable-field carriers). -/
def objIds : JSValue → List Nat
  | vObj i fs => i :: objIdsFields fs
  | vArr _ xs => objIdsList xs
  | _ => []
termination_by x => sizeOf x

def objIdsList : List JSValue → List Nat
  | [] => []
  | x :: r => objIds x ++ objIdsList r
termination_by xs => sizeOf xs

def objIdsFields : List (String × JSValue) → List Nat
  | [] => []
  | (_, v) :: r => objIds v ++ objIdsFields r
termination_by fs => sizeOf fs
end

mutual
/-- Heap-style field write addressed by identity: set key k to v on every
plain-object node whose identity is tid (in a well-formed tree there is
at most one).  A write addressed at an identity that does not occur in a
value is invisible to it — this is how clone/original independence is
stated. -/
def mutateField : JSValue → Nat → String → JSValue → JSValue
  | vObj i fs, tid, k, v =>
      let fs2 := mutateFieldFields fs tid k v
      if i = tid then vObj i (setField fs2 k v) else vObj i fs2
  | vArr i xs, tid, k, v => vArr i (mutateFieldList xs tid k v)
  | x, _, _, _ => x
termination_by x => sizeOf x

def mutateFieldList : List JSValue → Nat → String → JSValue → List JSValue
  | [], _, _, _ => []
  | x :: r, tid, k, v => mutateField x tid k v :: mutateFieldList r tid k v
termination_by xs => sizeOf xs

def mutateFieldFields : List (String × JSValue) → Nat → String → JSValue → List (String × JSValue)
  | [], _, _, _ => []
  | (k2, w) :: r, tid, k, v => (k2, mutateField w tid k v) :: mutateFieldFields r tid k v
termination_by fs => sizeOf fs
end

/-- Reference identity of a value (none for primitives). -/
def refId : JSValue → Option Nat
  | vArr i _ => some i
  | vObj i _ => some i
  | vDate i _ => some i
  | vRegExp i _ _ => some i
  | vFile i => some i
  | vFileList i => some i
  | _ => none

/-- The container kinds the claim says CLONE must duplicate: plain
mappings, sequences, dates and regexps. -/
def isContainer : JSValue → Bool
  | vArr _ _ => true
  | vObj _ _ => true
  | vDate _ _ => true
  | vRegExp _ _ _ => true
  | _ => false


/-- In-place replacement of an existing own entry (re-attaching a nested
object that the source mutated through its reference). -/
def replaceOwn : JSValue → String → JSValue → JSValue
  | vObj i fs, k, v => vObj i (setField fs k v)
  | vArr i xs, k, v =>
      (match k.toNat? with
       | some idx => vArr i (xs.set idx v)
       | none => vArr i xs)
  | x, _, _ => x

/-- The delete params[key] statement. -/
def remKey : JSValue → String → JSValue
  | vObj i fs, k => vObj i (removeField fs k)
  | x, _ => x

/-- The reduce callback chain of CONVERT_DOT_TO_OBJECT, rebuilt as a
recursion over the split segments: a falsy accumulator does nothing; an
existing (defined) entry is descended into; a missing entry gets a fresh
empty object on a non-final segment (a property creation that throws on a
truthy primitive accumulator, being strict mode) and the value itself on
the final segment, where an already-defined final entry is left as is. -/
def dotReduce (accum value : JSValue) : List String → Except String JSValue
  | [] => .ok accum
  | [curr] =>
      if truthy accum then
        if IS_DEFINED (getProp accum curr) then .ok accum
        else setProp accum curr value
      else .ok accum
  | curr :: rest =>
      if truthy accum then
        if IS_DEFINED (getProp accum curr) then
          match dotReduce (getProp accum curr) value rest with
          | .ok sub => .ok (replaceOwn accum curr sub)
          | .error e => .error e
        else
          match setProp accum curr (vObj 0 []) with
          | .ok accum2 =>
              (match dotReduce (vObj 0 []) value rest with
               | .ok sub => .ok (replaceOwn accum2 curr sub)
               | .error e => .error e)
          | .error e => .error e
      else .ok accum

/-- CONVERT_DOT_TO_OBJECT from the utils source: for every key containing
a dot, expand it into nested objects (via the reduce above) and delete
the dotted key.  ITERATE visits the own keys; keys created during the
expansion are dot-free, so visiting or skipping them is immaterial, and
arrays only carry dot-free index keys. -/
def CONVERT_DOT_TO_OBJECT (params : JSValue) : Except String JSValue :=
  match params with
  | vObj i fs =>
      (fs.map Prod.fst).foldlM
        (fun cur key =>
          if jsIncludesChar key '.' then
            match dotReduce cur (getProp cur key) (jsSplit key ".") with
            | .ok cur2 => .ok (remKey cur2 key)
            | .error e => .error e
          else .ok cur)
        (vObj i fs)
  | x => .ok x


/-- Fields after Object.assign: every own entry of the source written
into the target's field list in order. -/
def assignFields (A B : List (String × JSValue)) : List (String × JSValue) :=
  B.foldl (fun a p => setField a p.fst p.snd) A

/-- Object.assign(target, source) as far as the value model can carry
it: copying own enumerable entries onto a plain object.  A primitive
target is coerced to a discarded wrapper, so the target value itself is
unchanged; property attachment onto arrays, dates, regexps or string
wrappers is not representable and the merge theorems' hypotheses keep
those combinations out of reach. -/
def objAssign (target source : JSValue) : JSValue :=
  match target with
  | vObj i fs => vObj i (assignFields fs (ownEntries source))
  | x => x

mutual
/-- MERGE from the utils source.  The JavaScript function mutates both
arguments; the tree model returns the pair (returned target, mutated
source).  For every own key of the source whose value is an Object
instance (and a truthy target), the recursive merge result is assigned
back into the source entry; finally the (possibly replaced-by-empty,
then discarded) target receives all source entries.  JavaScript objects
have no duplicate keys, so updating source[key] in place is the same as
mapping the field list entrywise. -/
def MERGE (target source : JSValue) : JSValue × JSValue :=
  match source with
  | vObj sid fields =>
      let s2 := vObj sid (mergeFields target fields)
      (objAssign target s2, s2)
  | vArr sid elems =>
      let s2 := vArr sid (mergeElems target 0 elems)
      (objAssign target s2, s2)
  | s => (objAssign target s, s)
termination_by 2 * sizeOf source

/-- One source entry of the MERGE loop: Object.assign(source[key],
MERGE(target[key], source[key])) when the branch is taken. -/
def mval (target : JSValue) (k : String) (v : JSValue) : JSValue :=
  if truthy target && isObjectInstance v then
    let p := MERGE (getProp target k) v
    objAssign p.snd p.fst
  else v
termination_by 2 * sizeOf v + 1

def mergeFields (target : JSValue) : List (String × JSValue) → List (String × JSValue)
  | [] => []
  | (k, v) :: rest => (k, mval target k v) :: mergeFields target rest
termination_by fs => 2 * sizeOf fs

def mergeElems (target : JSValue) (i : Nat) : List JSValue → List JSValue
  | [] => []
  | v :: rest =>
      (if truthy target && isObjectInstance v then
        let p := MERGE (getProp target (toString i)) v
        objAssign p.snd p.fst
      else v) :: mergeElems target (i + 1) rest
termination_by xs => 2 * sizeOf xs
end

def insertFieldOrd (p : String × JSValue) : List (String × JSValue) → List (String × JSValue)
  | [] => [p]
  | q :: rest => if p.fst ≤ q.fst then p :: q :: rest else q :: insertFieldOrd p rest

/-- Insertion sort of object fields by key, the canonical field order. -/
def sortFields : List (String × JSValue) → List (String × JSValue)
  | [] => []
  | p :: rest => insertFieldOrd p (sortFields rest)

mutual
/-- Canonical form: identities erased and object fields sorted by key.
Two values have the same canonical form exactly when they are deep-equal
as JavaScript data (object key order being insertion history, not
content). -/
def canon : JSValue → JSValue
  | vObj _ fs => vObj 0 (sortFields (canonFields fs))
  | vArr _ xs => vArr 0 (canonList xs)
  | vDate _ t => vDate 0 t
  | vRegExp _ p f => vRegExp 0 p f
  | x => x
termination_by x => sizeOf x

def canonList : List JSValue → List JSValue
  | [] => []
  | x :: r => canon x :: canonList r
termination_by xs => sizeOf xs

def canonFields : List (String × JSValue) → List (String × JSValue)
  | [] => []
  | (k, v) :: r => (k, canon v) :: canonFields r
termination_by fs => sizeOf fs
end

def nodupKeys : List (String × JSValue) → Bool
  | [] => true
  | (k, _) :: rest => !((rest.map Prod.fst).contains k) && nodupKeys rest

mutual
/-- Deep merge as the spec words it: the result is the target with the
source's keys added; a key whose source value is a nested mapping and
whose target value is a nested mapping is merged recursively, otherwise
the source value overwrites. -/
def specMerge : JSValue → JSValue → JSValue
  | vObj tid tfs, vObj _ sfs => vObj tid (specMergeInto tfs sfs)
  | t, _ => t
termination_by _ s => sizeOf s

def specMergeInto (tfs : List (String × JSValue)) : List (String × JSValue) → List (String × JSValue)
  | [] => tfs
  | (k, vObj c d) :: rest =>
      specMergeInto
        (setField tfs k
          (match lookupField tfs k with
           | some (vObj a b) => specMerge (vObj a b) (vObj c d)
           | _ => vObj c d))
        rest
  | (k, v) :: rest => specMergeInto (setField tfs k v) rest
termination_by sfs => sizeOf sfs
end

/-- The spec's per-key merge decision. -/
def sval (tv : Option JSValue) (v : JSValue) : JSValue :=
  match tv, v with
  | some (vObj a b), vObj c d => specMerge (vObj a b) (vObj c d)
  | _, v2 => v2

/-- Target-side values under which a special (non-mapping Object
instance) source value passes through the merge unchanged: anything but
a mapping, an array, or a non-empty string. -/
def specialTvOk : Option JSValue → Bool
  | some (vObj _ _) => false
  | some (vArr _ _) => false
  | some (vStr st) => st == ""
  | _ => true

mutual
/-- Inputs on which MERGE is claim-shaped: both sides plain objects with
duplicate-free keys, source values that are primitives, nested mappings
(recursively compatible with the target value, which must then be a
mapping or effectively absent), or special Object instances whose target
counterpart is absent or inert.  Outside this set the JavaScript
function leaks array indices, string characters or wrapper properties,
which the claim does not describe. -/
def mergeCompat : JSValue → JSValue → Bool
  | vObj _ tfs, vObj _ sfs => nodupKeys tfs && nodupKeys sfs && mergeCompatFields tfs sfs
  | _, _ => false
termination_by _ s => 2 * sizeOf s

def entryOk (tfs : List (String × JSValue)) (k : String) : JSValue → Bool
  | vObj c d =>
      (match lookupField tfs k with
       | some (vObj a b) => mergeCompat (vObj a b) (vObj c d)
       | some (vArr _ _) => false
       | some (vStr st) => st == ""
       | _ => true)
  | vArr _ _ => specialTvOk (lookupField tfs k)
  | vDate _ _ => specialTvOk (lookupField tfs k)
  | vRegExp _ _ _ => specialTvOk (lookupField tfs k)
  | vFile _ => specialTvOk (lookupField tfs k)
  | vFileList _ => specialTvOk (lookupField tfs k)
  | _ => true
termination_by v => 2 * sizeOf v + 1

def mergeCompatFields (tfs : List (String × JSValue)) : List (String × JSValue) → Bool
  | [] => true
  | (k, v) :: rest => entryOk tfs k v && mergeCompatFields tfs rest
termination_by sfs => 2 * sizeOf sfs
end

-- ===================================================================
-- Theorems
-- ===================================================================

@[simp] theorem truthy_vNull : truthy vNull = false := rfl

@[simp] theorem truthy_vUndef : truthy vUndef = false := rfl

@[simp] theorem IS_DEFINED_vUndef : IS_DEFINED vUndef = false := rfl

@[simp] theorem IS_DEFINED_vNull : IS_DEFINED vNull = false := rfl

theorem walkPath_stuck (a : JSValue) (segs : List String) (h : truthy a = false) :
    walkPath a segs = a := by
  induction segs with
  | nil => rfl
  | cons s rest ih => simp [walkPath, walkStep, h] at ih ⊢; exact ih

theorem walkPath_split (item : JSValue) (segs : List String) (i : Nat) :
    walkPath item segs = walkPath (walkPath item (segs.take i)) (segs.drop i) := by
  simp [walkPath]
  rw [← List.foldl_append, List.take_append_drop]

/-- If the walk hits undefined or null at any prefix of the path, the
whole GET_VALUE call returns undefined. -/
theorem getValue_nullish_prefix (item : JSValue) (name path : Option String)
    (delimiter : String) (i : Nat)
    (hp : optTruthy path = true)
    (hw : walkPath item ((jsSplit (path.getD "") delimiter).take i) = vUndef ∨
          walkPath item ((jsSplit (path.getD "") delimiter).take i) = vNull) :
    GET_VALUE item name path delimiter = vUndef := by
  by_cases hitem : truthy item = true
  · have hfinal : walkPath item (jsSplit (path.getD "") delimiter) = vUndef ∨
        walkPath item (jsSplit (path.getD "") delimiter) = vNull := by
      rw [walkPath_split item _ i]
      rcases hw with h | h <;> rw [h]
      · exact Or.inl (walkPath_stuck _ _ rfl)
      · exact Or.inr (walkPath_stuck _ _ rfl)
    rcases hfinal with h | h <;>
      simp [GET_VALUE, hp, hitem, h]
  · have hitem' : truthy item = false := by simpa using hitem
    simp [GET_VALUE, hitem']

theorem claim_helper_trim_empty (item : JSValue) (n : String)
    (h : (TRIM (jsToString (getProp item n))).length = 0) :
    GET_VALUE item (some n) none "." = vUndef := by
  by_cases hitem : truthy item = true
  · by_cases hd : IS_DEFINED (getProp item n) = true
    · by_cases hn : n = ""
      · subst hn
        simp [GET_VALUE, hitem, optTruthy]
      · simp [GET_VALUE, hitem, optTruthy, hn, hd, h]
    · have hd' : IS_DEFINED (getProp item n) = false := by simpa using hd
      simp [GET_VALUE, hitem, optTruthy, hd']
  · have hitem' : truthy item = false := by simpa using hitem
    simp [GET_VALUE, hitem']

/-- Claim C6 (corrected): GET_VALUE returns the resolved value when it is
defined with a non-blank string form; the three concrete examples of the
claim hold; resolving through an undefined or null intermediate segment
yields undefined, and a name whose value has a blank string form yields
undefined.  (The claim's further assertion that every falsy intermediate
yields undefined fails: 0 and false propagate and are returned, see the
counterexample.) -/
theorem claim_C6 :
    GET_VALUE (vObj 0 [("a", vObj 1 [("b", vStr "x")])]) (some "b") (some "a") "." = vStr "x"
    ∧ GET_VALUE (vObj 0 [("a", vObj 1 [("b", vStr "")])]) (some "b") (some "a") "." = vUndef
    ∧ GET_VALUE (vObj 0 [("a", vObj 1 [])]) (some "b") (some "a") "." = vUndef
    ∧ (∀ (item : JSValue) (name path : Option String) (delimiter : String) (i : Nat),
        optTruthy path = true →
        (walkPath item ((jsSplit (path.getD "") delimiter).take i) = vUndef ∨
         walkPath item ((jsSplit (path.getD "") delimiter).take i) = vNull) →
        GET_VALUE item name path delimiter = vUndef)
    ∧ (∀ (item : JSValue) (n : String),
        (TRIM (jsToString (getProp item n))).length = 0 →
        GET_VALUE item (some n) none "." = vUndef) := by
  refine ⟨?_, ?_, ?_, getValue_nullish_prefix, claim_helper_trim_empty⟩ <;>
    simp [GET_VALUE, jsSplit, jsSplitGo, listStartsWith, walkPath, walkStep, getProp,
      lookupField, truthy, optTruthy, IS_DEFINED, jsToString, TRIM, isJsWhitespace] <;>
    decide

/-- Witness for claim C6: the general rules applied at concrete inputs. -/
theorem claim_C6_witness :
    GET_VALUE (vObj 0 [("a", vNull)]) none (some "a.b") "." = vUndef
    ∧ GET_VALUE (vObj 0 [("q", vStr "  ")]) (some "q") none "." = vUndef := by
  constructor
  · exact claim_C6.2.2.2.1 (vObj 0 [("a", vNull)]) none (some "a.b") "." 1 (by decide)
      (Or.inr (by simp [jsSplit, jsSplitGo, listStartsWith, walkPath, walkStep, getProp,
        lookupField, truthy] <;> decide))
  · exact claim_C6.2.2.2.2 (vObj 0 [("q", vStr "  ")]) "q"
      (by simp [getProp, lookupField, jsToString, TRIM, isJsWhitespace])

/-- Counterexample to claim C6 as stated: the intermediate segment "a"
resolves to false, which is falsy, yet GET_VALUE returns false rather
than undefined — the falsy intermediate propagates to the final value and
survives the non-blank filter. -/
theorem claim_C6_cex :
    GET_VALUE (vObj 0 [("a", vBool false)]) none (some "a.b") "." = vBool false
    ∧ vBool false ≠ vUndef := by
  constructor
  · simp [GET_VALUE, jsSplit, jsSplitGo, listStartsWith, walkPath, walkStep, getProp,
      lookupField, truthy, optTruthy, IS_DEFINED, jsToString, TRIM, isJsWhitespace]
    decide
  · simp

/-- Claim C10 (confirmed): GET_OBJECT_PARAM on a mapping without a path
returns undefined (it delegates to GET_VALUE with an empty name, whose
falsy-name branch leaves the value undefined); non-mapping inputs pass
through verbatim. -/
theorem claim_C10 :
    (∀ item : JSValue, IS_OBJECT item = true → GET_OBJECT_PARAM item none "." = vUndef)
    ∧ (∀ (item : JSValue) (path : Option String) (delimiter : String),
        IS_OBJECT item = false → GET_OBJECT_PARAM item path delimiter = item) := by
  constructor
  · intro item h
    cases item <;> simp [IS_OBJECT] at h <;>
      simp [GET_OBJECT_PARAM, IS_OBJECT, GET_VALUE, truthy, optTruthy]
  · intro item p d h
    simp [GET_OBJECT_PARAM, h]

/-- Witness for claim C10: both parts applied at concrete inputs. -/
theorem claim_C10_witness :
    GET_OBJECT_PARAM (vObj 3 [("k", vNum 7)]) none "." = vUndef
    ∧ GET_OBJECT_PARAM (vNum 5) (some "k") "." = vNum 5 :=
  ⟨claim_C10.1 (vObj 3 [("k", vNum 7)]) rfl, claim_C10.2 (vNum 5) (some "k") "." rfl⟩

theorem debounce_rapid_lastq {A : Type} (calls : List (Nat × A)) :
    ∀ (t : Nat) (a : A), rapidCalls calls = true → calls.getLast? = some (t, a) →
    debounceFlushes calls = [(t + debounceWindow, a)] := by
  induction calls with
  | nil => intro t a _ hl; simp at hl
  | cons hd rest ih =>
      intro t a hr hl
      obtain ⟨t1, a1⟩ := hd
      cases rest with
      | nil =>
          simp at hl
          obtain ⟨h1, h2⟩ := hl
          subst h1; subst h2
          simp [debounceFlushes]
      | cons hd2 rest2 =>
          obtain ⟨t2, a2⟩ := hd2
          have hr' := hr
          simp only [rapidCalls, Bool.and_eq_true, decide_eq_true_eq] at hr'
          obtain ⟨⟨hle, hlt⟩, htail⟩ := hr'
          have hl' : ((t2, a2) :: rest2).getLast? = some (t, a) := by
            simpa [List.getLast?_cons_cons] using hl
          have hres := ih t a htail hl'
          simpa [debounceFlushes, hlt] using hres

/-- Claim C2 (confirmed): navigate overwrites the single-slot queue with
the newest argument pair, and a run of rapid queue writes — each landing
strictly inside the 400 ms window of its predecessor — produces exactly
one debounce flush, timed one window after the last write and carrying
the last write's payload. -/
theorem claim_C2 :
    (∀ (config : IConfig) (params : Option IConfig) (st : NavState),
        (navigate config params st).queue = some (config, params))
    ∧ (∀ (A : Type) (calls : List (Nat × A)) (t : Nat) (a : A),
        rapidCalls calls = true → calls.getLast? = some (t, a) →
        debounceFlushes calls = [(t + debounceWindow, a)]) :=
  ⟨fun _ _ _ => rfl, fun _ calls t a hr hl => debounce_rapid_lastq calls t a hr hl⟩

/-- Witness for claim C2: three calls at 0, 100 and 300 ms coalesce into
the single flush (700, last payload). -/
theorem claim_C2_witness :
    (navigate { syscode := some "grid" } none ⟨none⟩).queue
      = some ({ syscode := some "grid" }, none)
    ∧ debounceFlushes [(0, 10), (100, 20), (300, 30)] = [(700, 30)] := by
  refine ⟨claim_C2.1 _ none ⟨none⟩, ?_⟩
  have hres := claim_C2.2 Nat [(0, 10), (100, 20), (300, 30)] 300 30 (by decide) (by decide)
  simpa [debounceWindow] using hres

/-- Claim C1 (corrected): with config.syscode undefined, every public
operation performs no navigation and leaves the query state untouched —
the flush emits nothing — but, contrary to the claim's second half, the
mutator effects do not apply either: the syscode guard wraps the whole
body of onPageChange/onLimitChange/onSort, so config (and the queue) are
left completely unchanged. -/
theorem claim_C1 (config : IConfig) (h : config.syscode = none) :
    (∀ (routeQuery : JSValue) (selfPath : String) (params : Option IConfig),
        flushNavigate routeQuery selfPath config params = .ok none)
    ∧ (∀ (value : Int) (st : NavState), onPageChange config value st = (config, st))
    ∧ (∀ (value : Int) (st : NavState), onLimitChange config value st = (config, st))
    ∧ (∀ (value : List JSValue) (st : NavState), onSort config value st = (config, st)) := by
  have hf : configSyscodeTruthy config = false := by simp [configSyscodeTruthy, h]
  exact ⟨fun _ _ _ => by simp [flushNavigate, hf],
         fun _ _ => by simp [onPageChange, hf],
         fun _ _ => by simp [onLimitChange, hf],
         fun _ _ => by simp [onSort, hf]⟩

/-- Witness for claim C1 at a concrete syscode-less config. -/
theorem claim_C1_witness :
    flushNavigate (vObj 0 []) "/p" { syscode := none, pagination := some { page := some 1 } } none
      = .ok none
    ∧ onPageChange { syscode := none, pagination := some { page := some 1 } } 2 ⟨none⟩
        = ({ syscode := none, pagination := some { page := some 1 } }, ⟨none⟩) := by
  have hc := claim_C1 { syscode := none, pagination := some { page := some 1 } } rfl
  exact ⟨hc.1 (vObj 0 []) "/p" none, hc.2.1 2 ⟨none⟩⟩

/-- Counterexample to claim C1 as stated: with syscode undefined,
onPageChange does not set pagination.page — the prior page 1 survives
instead of becoming 2. -/
theorem claim_C1_cex :
    (onPageChange { syscode := none, pagination := some { page := some 1 } } 2 ⟨none⟩).fst.pagination
      = some { page := some 1, limit := none }
    ∧ (some { page := some 1, limit := none } : Option IPagination)
        ≠ some { page := some 2, limit := none } :=
  ⟨rfl, by decide⟩

/-- Claim C5 (code bug): for a config with syscode set but pagination
absent, onPageChange is supposed to create config.pagination and set its
page, yet the source writes the page onto the detached result of
config.pagination || an empty object: config.pagination stays absent
while a navigation intent is still enqueued. -/
theorem claim_C5_bug :
    (onPageChange { syscode := some "grid" } 2 ⟨none⟩).fst.pagination = none
    ∧ (onPageChange { syscode := some "grid" } 2 ⟨none⟩).snd.queue
        = some ({ syscode := some "grid" }, none)
    ∧ (onPageChange { syscode := some "grid", pagination := some { page := some 1, limit := some 10 } }
        2 ⟨none⟩).fst.pagination = some { page := some 2, limit := some 10 } :=
  ⟨rfl, rfl, rfl⟩

mutual
theorem cloneSt_counter_le (x : JSValue) (n : Nat) : n ≤ (cloneSt x n).snd := by
  match x with
  | vNull | vUndef | vBool _ | vNum _ | vStr _ => simp [cloneSt]
  | vArr i xs =>
      have h := cloneList_counter_le xs (n + 1)
      simp [cloneSt]
      omega
  | vObj i fs =>
      have h := cloneFields_counter_le fs (n + 1)
      simp [cloneSt]
      omega
  | vDate i t => simp [cloneSt]
  | vRegExp i a b => simp [cloneSt]
  | vFile i => simp [cloneSt]
  | vFileList i => simp [cloneSt]
termination_by sizeOf x

theorem cloneList_counter_le (xs : List JSValue) (n : Nat) : n ≤ (cloneList xs n).snd := by
  match xs with
  | [] => simp [cloneList]
  | x :: r =>
      have h1 := cloneSt_counter_le x n
      have h2 := cloneList_counter_le r (cloneSt x n).snd
      simp [cloneList]
      omega
termination_by sizeOf xs

theorem cloneFields_counter_le (fs : List (String × JSValue)) (n : Nat) :
    n ≤ (cloneFields fs n).snd := by
  match fs with
  | [] => simp [cloneFields]
  | (k, v) :: r =>
      have h1 := cloneSt_counter_le v n
      have h2 := cloneFields_counter_le r (cloneSt v n).snd
      simp [cloneFields]
      omega
termination_by sizeOf fs
end

mutual
theorem strip_cloneSt (x : JSValue) (n : Nat) : stripIds (cloneSt x n).fst = stripIds x := by
  match x with
  | vNull | vUndef | vBool _ | vNum _ | vStr _ => simp [cloneSt]
  | vArr i xs =>
      simp [cloneSt, stripIds]
      exact strip_cloneList xs (n + 1)
  | vObj i fs =>
      simp [cloneSt, stripIds]
      exact strip_cloneFields fs (n + 1)
  | vDate i t => simp [cloneSt, stripIds]
  | vRegExp i a b => simp [cloneSt, stripIds]
  | vFile i => simp [cloneSt]
  | vFileList i => simp [cloneSt]
termination_by sizeOf x

theorem strip_cloneList (xs : List JSValue) (n : Nat) :
    stripList (cloneList xs n).fst = stripList xs := by
  match xs with
  | [] => simp [cloneList]
  | x :: r =>
      simp [cloneList, stripList]
      exact ⟨strip_cloneSt x n, strip_cloneList r (cloneSt x n).snd⟩
termination_by sizeOf xs

theorem strip_cloneFields (fs : List (String × JSValue)) (n : Nat) :
    stripFields (cloneFields fs n).fst = stripFields fs := by
  match fs with
  | [] => simp [cloneFields]
  | (k, v) :: r =>
      simp [cloneFields, stripFields]
      exact ⟨strip_cloneSt v n, strip_cloneFields r (cloneSt v n).snd⟩
termination_by sizeOf fs
end

mutual
theorem objIds_cloneSt_ge (x : JSValue) (n : Nat) :
    ∀ j ∈ objIds (cloneSt x n).fst, n ≤ j := by
  match x with
  | vNull | vUndef | vBool _ | vNum _ | vStr _ => simp [cloneSt, objIds]
  | vArr i xs =>
      intro j hj
      simp [cloneSt, objIds] at hj
      have := objIds_cloneList_ge xs (n + 1) j hj
      omega
  | vObj i fs =>
      intro j hj
      simp [cloneSt, objIds] at hj
      rcases hj with h | h
      · omega
      · have := objIds_cloneFields_ge fs (n + 1) j h
        omega
  | vDate i t => simp [cloneSt, objIds]
  | vRegExp i a b => simp [cloneSt, objIds]
  | vFile i => simp [cloneSt, objIds]
  | vFileList i => simp [cloneSt, objIds]
termination_by sizeOf x

theorem objIds_cloneList_ge (xs : List JSValue) (n : Nat) :
    ∀ j ∈ objIdsList (cloneList xs n).fst, n ≤ j := by
  match xs with
  | [] => simp [cloneList, objIdsList]
  | x :: r =>
      intro j hj
      simp [cloneList, objIdsList] at hj
      rcases hj with h | h
      · exact objIds_cloneSt_ge x n j h
      · have h1 := cloneSt_counter_le x n
        have h2 := objIds_cloneList_ge r (cloneSt x n).snd j h
        omega
termination_by sizeOf xs

theorem objIds_cloneFields_ge (fs : List (String × JSValue)) (n : Nat) :
    ∀ j ∈ objIdsFields (cloneFields fs n).fst, n ≤ j := by
  match fs with
  | [] => simp [cloneFields, objIdsFields]
  | (k, v) :: r =>
      intro j hj
      simp [cloneFields, objIdsFields] at hj
      rcases hj with h | h
      · exact objIds_cloneSt_ge v n j h
      · have h1 := cloneSt_counter_le v n
        have h2 := objIds_cloneFields_ge r (cloneSt v n).snd j h
        omega
termination_by sizeOf fs
end

mutual
theorem allIds_le_maxId (x : JSValue) : ∀ j ∈ allIds x, j ≤ maxId x := by
  match x with
  | vNull | vUndef | vBool _ | vNum _ | vStr _ => simp [allIds]
  | vArr i xs =>
      intro j hj
      simp [allIds] at hj
      rcases hj with h | h
      · simp [maxId]; omega
      · have := allIdsList_le_maxIdList xs j h
        simp [maxId]; omega
  | vObj i fs =>
      intro j hj
      simp [allIds] at hj
      rcases hj with h | h
      · simp [maxId]; omega
      · have := allIdsFields_le_maxIdFields fs j h
        simp [maxId]; omega
  | vDate i t => intro j hj; simp [allIds] at hj; simp [maxId]; omega
  | vRegExp i a b => intro j hj; simp [allIds] at hj; simp [maxId]; omega
  | vFile i => intro j hj; simp [allIds] at hj; simp [maxId]; omega
  | vFileList i => intro j hj; simp [allIds] at hj; simp [maxId]; omega
termination_by sizeOf x

theorem allIdsList_le_maxIdList (xs : List JSValue) : ∀ j ∈ allIdsList xs, j ≤ maxIdList xs := by
  match xs with
  | [] => simp [allIdsList]
  | x :: r =>
      intro j hj
      simp [allIdsList] at hj
      rcases hj with h | h
      · have := allIds_le_maxId x j h
        simp [maxIdList]; omega
      · have := allIdsList_le_maxIdList r j h
        simp [maxIdList]; omega
termination_by sizeOf xs

theorem allIdsFields_le_maxIdFields (fs : List (String × JSValue)) :
    ∀ j ∈ allIdsFields fs, j ≤ maxIdFields fs := by
  match fs with
  | [] => simp [allIdsFields]
  | (k, v) :: r =>
      intro j hj
      simp [allIdsFields] at hj
      rcases hj with h | h
      · have := allIds_le_maxId v j h
        simp [maxIdFields]; omega
      · have := allIdsFields_le_maxIdFields r j h
        simp [maxIdFields]; omega
termination_by sizeOf fs
end

mutual
theorem mutateField_notin (x : JSValue) (tid : Nat) (k : String) (v : JSValue)
    (h : tid ∉ allIds x) : mutateField x tid k v = x := by
  match x with
  | vNull | vUndef | vBool _ | vNum _ | vStr _ => simp [mutateField]
  | vArr i xs =>
      simp [allIds] at h
      simp [mutateField]
      exact mutateFieldList_notin xs tid k v h.2
  | vObj i fs =>
      simp [allIds] at h
      have hne : ¬(i = tid) := fun he => h.1 he.symm
      simp [mutateField, hne]
      exact mutateFieldFields_notin fs tid k v h.2
  | vDate i t => simp [mutateField]
  | vRegExp i a b => simp [mutateField]
  | vFile i => simp [mutateField]
  | vFileList i => simp [mutateField]
termination_by sizeOf x

theorem mutateFieldList_notin (xs : List JSValue) (tid : Nat) (k : String) (v : JSValue)
    (h : tid ∉ allIdsList xs) : mutateFieldList xs tid k v = xs := by
  match xs with
  | [] => simp [mutateFieldList]
  | x :: r =>
      simp [allIdsList] at h
      simp [mutateFieldList]
      exact ⟨mutateField_notin x tid k v h.1, mutateFieldList_notin r tid k v h.2⟩
termination_by sizeOf xs

theorem mutateFieldFields_notin (fs : List (String × JSValue)) (tid : Nat) (k : String)
    (v : JSValue) (h : tid ∉ allIdsFields fs) : mutateFieldFields fs tid k v = fs := by
  match fs with
  | [] => simp [mutateFieldFields]
  | (k2, w) :: r =>
      simp [allIdsFields] at h
      simp [mutateFieldFields]
      exact ⟨mutateField_notin w tid k v h.1, mutateFieldFields_notin r tid k v h.2⟩
termination_by sizeOf fs
end

/-- Claim C8 (confirmed): CLONE preserves deep content (equal erasures);
every mutable (plain-object) node of the clone carries an identity fresh
for the original, so a field write addressed at any node of the clone
leaves the original unchanged; for containers (mappings, sequences,
dates, regexps) the clone's reference identity differs from the
original's; File and FileList handles are returned by reference. -/
theorem claim_C8 (x : JSValue) :
    stripIds (CLONE x) = stripIds x
    ∧ (∀ (tid : Nat) (k : String) (v : JSValue),
        tid ∈ objIds (CLONE x) → mutateField x tid k v = x)
    ∧ (isContainer x = true → refId (CLONE x) ≠ refId x)
    ∧ (∀ i : Nat, CLONE (vFile i) = vFile i ∧ CLONE (vFileList i) = vFileList i) := by
  refine ⟨strip_cloneSt x (maxId x + 1), ?_, ?_, ?_⟩
  · intro tid k v hmem
    have h1 := objIds_cloneSt_ge x (maxId x + 1) tid hmem
    apply mutateField_notin
    intro hin
    have h2 := allIds_le_maxId x tid hin
    omega
  · intro hc
    match x, hc with
    | vObj i fs, _ =>
        simp [CLONE, cloneSt, refId, maxId]
        omega
    | vArr i xs, _ =>
        simp [CLONE, cloneSt, refId, maxId]
        omega
    | vDate i t, _ =>
        simp [CLONE, cloneSt, refId, maxId]
    | vRegExp i a b, _ =>
        simp [CLONE, cloneSt, refId, maxId]
  · intro i
    constructor <;> simp [CLONE, cloneSt]

/-- Witness for claim C8: a field write addressed at the cloned root's
fresh identity is invisible to the original, and the clone of a mapping
has a different reference identity. -/
theorem claim_C8_witness :
    mutateField (vObj 7 [("a", vObj 7 [("b", vNum 1)])]) 8 "c" (vNum 5)
      = vObj 7 [("a", vObj 7 [("b", vNum 1)])]
    ∧ refId (CLONE (vObj 7 [("a", vObj 7 [("b", vNum 1)])]))
        ≠ refId (vObj 7 [("a", vObj 7 [("b", vNum 1)])]) := by
  refine ⟨(claim_C8 _).2.1 8 "c" (vNum 5) ?_, (claim_C8 _).2.2.1 rfl⟩
  simp [CLONE, cloneSt, cloneFields, cloneList, maxId, maxIdFields, maxIdList,
    objIds, objIdsFields, objIdsList]

/-- Claim C7 (corrected): when the intermediate segment of a dotted key
holds a defined falsy value (0, the empty string, false), the deeper
assignment is silently dropped — the expansion walks into the falsy
value, every remaining step no-ops, and only the dotted key's deletion
remains.  (When the intermediate holds a defined truthy primitive the
operation throws instead, see the counterexample.) -/
theorem claim_C7 (pid : Nat) (k1 k2 k : String) (w v : JSValue)
    (hk1 : jsIncludesChar k1 '.' = false)
    (hk : jsIncludesChar k '.' = true)
    (hsplit : jsSplit k "." = [k1, k2])
    (hdef : IS_DEFINED w = true)
    (hfalsy : truthy w = false) :
    CONVERT_DOT_TO_OBJECT (vObj pid [(k1, w), (k, v)]) = .ok (vObj pid [(k1, w)]) := by
  have hne : ¬(k1 = k) := by
    intro he
    rw [he] at hk1
    simp [hk1] at hk
  simp [CONVERT_DOT_TO_OBJECT, List.foldlM_cons, List.foldlM_nil, Except.bind, bind, pure,
    Except.pure, hk1, hk, hsplit, dotReduce, getProp, lookupField, hne, hdef, hfalsy,
    replaceOwn, setField, remKey, removeField]

/-- Witness for claim C7: the dotted key a.b with the defined falsy
intermediate 0 at key a is dropped without error. -/
theorem claim_C7_witness :
    CONVERT_DOT_TO_OBJECT (vObj 0 [("a", vNum 0), ("a.b", vNum 1)])
      = .ok (vObj 0 [("a", vNum 0)]) :=
  claim_C7 0 "a" "b" "a.b" (vNum 0) (vNum 1) (by decide) (by decide) (by decide) rfl (by decide)

/-- Counterexample to claim C7 as stated: with the defined truthy
primitive 5 at the intermediate key a, the expansion of a.b attempts the
strict-mode property creation (5).b and throws a TypeError instead of
silently dropping the assignment. -/
theorem claim_C7_cex :
    CONVERT_DOT_TO_OBJECT (vObj 0 [("a", vNum 5), ("a.b", vNum 1)])
      = .error "TypeError: cannot create property on a primitive" := by
  simp [CONVERT_DOT_TO_OBJECT, List.foldlM_cons, List.foldlM_nil, Except.bind, bind, pure,
    Except.pure, dotReduce, jsIncludesChar, jsSplit, jsSplitGo, listStartsWith, getProp,
    lookupField, setProp, replaceOwn, remKey, truthy, IS_DEFINED, removeField, setField]

/-- Claim C3 (confirmed): with an empty current query, syscode grid,
pagination page 2 / limit 10 and extra config sort [["name","asc"]], the
builder returns the grid entry as a JSON string whose parse is exactly
the object with those sort and pagination sub-keys; and (third conjunct)
step 4 sets the pagination sub-key unconditionally from the pagination
argument whenever the namespace entry is an object. -/
theorem claim_C3 :
    generateQueryParams (vObj 0 []) "grid" (vObj 1 [("page", vNum 2), ("limit", vNum 10)])
        (vObj 2 [("sort", vArr 3 [vArr 4 [vStr "name", vStr "asc"]])])
      = .ok (vObj 0 [("grid",
          vStr "\x7b\"sort\":[[\"name\",\"asc\"]],\"pagination\":\x7b\"page\":2,\"limit\":10\x7d\x7d")])
    ∧ JSONParse "\x7b\"sort\":[[\"name\",\"asc\"]],\"pagination\":\x7b\"page\":2,\"limit\":10\x7d\x7d"
      = .ok (vObj 0 [("sort", vArr 0 [vArr 0 [vStr "name", vStr "asc"]]),
                     ("pagination", vObj 0 [("page", vNum 2), ("limit", vNum 10)])])
    ∧ (∀ (qp : JSValue) (syscode : String) (pagination : JSValue) (i : Nat)
          (fs : List (String × JSValue)),
        getProp qp syscode = vObj i fs →
        gqpStep4 qp syscode pagination
          = .ok (objSet qp syscode (vObj i (setField fs "pagination" (paginationPair pagination))))) := by
  refine ⟨?_, rfl, ?_⟩
  · have h5 : jsonStringify? (vObj 0 [("sort", vArr 3 [vArr 4 [vStr "name", vStr "asc"]]),
        ("pagination", vObj 0 [("page", vNum 2), ("limit", vNum 10)])])
        = some "\x7b\"sort\":[[\"name\",\"asc\"]],\"pagination\":\x7b\"page\":2,\"limit\":10\x7d\x7d" := by
      simp [jsonStringify?, jsonMembers, jsonElems, jsonQuote, jsonEscapeChar]
      decide
    have hq : generateQueryParams (vObj 0 []) "grid"
        (vObj 1 [("page", vNum 2), ("limit", vNum 10)])
        (vObj 2 [("sort", vArr 3 [vArr 4 [vStr "name", vStr "asc"]])])
        = .ok (gqpStep5 (vObj 0 [("grid",
            vObj 0 [("sort", vArr 3 [vArr 4 [vStr "name", vStr "asc"]]),
                    ("pagination", vObj 0 [("page", vNum 2), ("limit", vNum 10)])])])) := rfl
    rw [hq]
    simp [gqpStep5, h5]
  · intro qp syscode pagination i fs h
    simp [gqpStep4, h, setProp]

/-- Witness for claim C3: the unconditional pagination write applied at a
concrete namespace object. -/
theorem claim_C3_witness :
    gqpStep4 (vObj 0 [("g", vObj 1 [])]) "g" vUndef
      = .ok (objSet (vObj 0 [("g", vObj 1 [])]) "g"
          (vObj 1 (setField [] "pagination" (paginationPair vUndef)))) :=
  claim_C3.2.2 (vObj 0 [("g", vObj 1 [])]) "g" vUndef 1 [] rfl

theorem lookupField_setField (A : List (String × JSValue)) (k : String) (v : JSValue)
    (k2 : String) :
    lookupField (setField A k v) k2 = if k2 = k then some v else lookupField A k2 := by
  induction A with
  | nil =>
      by_cases h : k2 = k
      · subst h; simp [setField, lookupField]
      · simp [setField, lookupField, h, Ne.symm h]
  | cons p rest ih =>
      obtain ⟨k1, w⟩ := p
      by_cases h1 : k1 = k
      · subst h1
        by_cases h2 : k2 = k1
        · subst h2; simp [setField, lookupField]
        · simp [setField, lookupField, h2, Ne.symm h2]
      · by_cases h2 : k2 = k
        · subst h2
          simp [setField, lookupField, h1, Ne.symm h1, ih]
        · simp [setField, lookupField, h1, h2, ih]

theorem lookupField_eq_none_iff (A : List (String × JSValue)) (k : String) :
    lookupField A k = none ↔ k ∉ A.map Prod.fst := by
  induction A with
  | nil => simp [lookupField]
  | cons p rest ih =>
      obtain ⟨k1, w⟩ := p
      by_cases h : k1 = k
      · subst h; simp [lookupField]
      · simp [lookupField, h, ih, Ne.symm h]

theorem mem_of_lookupField_eq_some (A : List (String × JSValue)) (k : String) (v : JSValue)
    (h : lookupField A k = some v) : (k, v) ∈ A := by
  induction A with
  | nil => simp [lookupField] at h
  | cons p rest ih =>
      obtain ⟨k1, w⟩ := p
      by_cases h1 : k1 = k
      · subst h1
        simp [lookupField] at h
        simp [h]
      · simp [lookupField, h1] at h
        exact List.mem_cons_of_mem _ (ih h)

theorem lookupField_eq_some_of_mem (A : List (String × JSValue)) (k : String) (v : JSValue)
    (hnd : (A.map Prod.fst).Nodup) (h : (k, v) ∈ A) : lookupField A k = some v := by
  induction A with
  | nil => simp at h
  | cons p rest ih =>
      obtain ⟨k1, w⟩ := p
      rw [List.map_cons, List.nodup_cons] at hnd
      rcases List.mem_cons.mp h with he | hmem
      · cases he
        simp [lookupField]
      · have hk : ¬ k1 = k := by
          intro he2
          subst he2
          exact hnd.1 (List.mem_map.mpr ⟨(k1, v), hmem, rfl⟩)
        simp only [lookupField, if_neg hk]
        exact ih hnd.2 hmem

theorem nodupKeys_iff (A : List (String × JSValue)) :
    nodupKeys A = true ↔ (A.map Prod.fst).Nodup := by
  induction A with
  | nil => simp [nodupKeys]
  | cons p rest ih =>
      obtain ⟨k1, w⟩ := p
      simp [nodupKeys, ih, List.contains]

theorem keys_setField_mem (A : List (String × JSValue)) (k : String) (v : JSValue)
    (k2 : String) :
    k2 ∈ (setField A k v).map Prod.fst ↔ k2 ∈ A.map Prod.fst ∨ k2 = k := by
  induction A with
  | nil => simp [setField]
  | cons p rest ih =>
      obtain ⟨k1, w⟩ := p
      by_cases h1 : k1 = k
      · subst h1
        simp [setField]
        tauto
      · simp [setField, h1, ih]
        tauto

theorem nodup_setField (A : List (String × JSValue)) (k : String) (v : JSValue)
    (hnd : (A.map Prod.fst).Nodup) : ((setField A k v).map Prod.fst).Nodup := by
  induction A with
  | nil => simp [setField]
  | cons p rest ih =>
      obtain ⟨k1, w⟩ := p
      rw [List.map_cons, List.nodup_cons] at hnd
      by_cases h1 : k1 = k
      · subst h1
        have hset : setField ((k1, w) :: rest) k1 v = (k1, v) :: rest := by
          simp [setField]
        rw [hset, List.map_cons, List.nodup_cons]
        exact hnd
      · simp only [setField, if_neg h1]
        rw [List.map_cons, List.nodup_cons]
        refine ⟨?_, ih hnd.2⟩
        intro hm
        rcases (keys_setField_mem rest k v k1).mp hm with h | h
        · exact hnd.1 h
        · exact h1 h

theorem lookupField_assignFields (B : List (String × JSValue)) :
    ∀ (A : List (String × JSValue)) (k : String), (B.map Prod.fst).Nodup →
    lookupField (assignFields A B) k =
      (match lookupField B k with
       | some v => some v
       | none => lookupField A k) := by
  induction B with
  | nil => intro A k _; simp [assignFields, lookupField]
  | cons p rest ih =>
      intro A k hB
      obtain ⟨k0, v0⟩ := p
      rw [List.map_cons, List.nodup_cons] at hB
      have hstep : assignFields A ((k0, v0) :: rest) = assignFields (setField A k0 v0) rest := rfl
      rw [hstep, ih (setField A k0 v0) k hB.2]
      by_cases h : k0 = k
      · subst h
        have hnone : lookupField rest k0 = none := (lookupField_eq_none_iff rest k0).mpr hB.1
        rw [hnone]
        simp [lookupField, lookupField_setField]
      · simp only [lookupField, if_neg h]
        cases hlk : lookupField rest k
        · rw [lookupField_setField]
          simp [Ne.symm h]
        · simp

theorem mem_keys_assignFields (B : List (String × JSValue)) :
    ∀ (A : List (String × JSValue)) (k2 : String),
    k2 ∈ (assignFields A B).map Prod.fst ↔ k2 ∈ A.map Prod.fst ∨ k2 ∈ B.map Prod.fst := by
  induction B with
  | nil => intro A k2; simp [assignFields]
  | cons p rest ih =>
      intro A k2
      obtain ⟨k0, v0⟩ := p
      have hstep : assignFields A ((k0, v0) :: rest) = assignFields (setField A k0 v0) rest := rfl
      rw [hstep, ih, keys_setField_mem]
      simp only [List.map_cons, List.mem_cons]
      tauto

theorem nodup_assignFields (B : List (String × JSValue)) :
    ∀ (A : List (String × JSValue)), (A.map Prod.fst).Nodup →
    ((assignFields A B).map Prod.fst).Nodup := by
  induction B with
  | nil => intro A h; exact h
  | cons p rest ih =>
      intro A h
      obtain ⟨k0, v0⟩ := p
      have hstep : assignFields A ((k0, v0) :: rest) = assignFields (setField A k0 v0) rest := rfl
      rw [hstep]
      exact ih _ (nodup_setField A k0 v0 h)

theorem keys_canonFields (fs : List (String × JSValue)) :
    (canonFields fs).map Prod.fst = fs.map Prod.fst := by
  induction fs with
  | nil => simp [canonFields]
  | cons p rest ih =>
      obtain ⟨k, v⟩ := p
      simp [canonFields, ih]

theorem lookup_canonFields (fs : List (String × JSValue)) (k : String) :
    lookupField (canonFields fs) k = (lookupField fs k).map canon := by
  induction fs with
  | nil => simp [canonFields, lookupField]
  | cons p rest ih =>
      obtain ⟨k1, v⟩ := p
      by_cases h : k1 = k
      · subst h; simp [canonFields, lookupField]
      · simp [canonFields, lookupField, h, ih]

theorem perm_insertFieldOrd (p : String × JSValue) (l : List (String × JSValue)) :
    List.Perm (insertFieldOrd p l) (p :: l) := by
  induction l with
  | nil => simp [insertFieldOrd]
  | cons q rest ih =>
      by_cases h : p.fst ≤ q.fst
      · simp [insertFieldOrd, h]
      · simp only [insertFieldOrd, if_neg h]
        exact (ih.cons q).trans (List.Perm.swap p q rest)

theorem perm_sortFields (l : List (String × JSValue)) : List.Perm (sortFields l) l := by
  induction l with
  | nil => simp [sortFields]
  | cons p rest ih =>
      exact (perm_insertFieldOrd p (sortFields rest)).trans (ih.cons p)

theorem sorted_insertFieldOrd (p : String × JSValue) (l : List (String × JSValue))
    (hs : List.Pairwise (fun a b : String × JSValue => a.fst ≤ b.fst) l) :
    List.Pairwise (fun a b : String × JSValue => a.fst ≤ b.fst) (insertFieldOrd p l) := by
  induction l with
  | nil => simp [insertFieldOrd]
  | cons q rest ih =>
      rw [List.pairwise_cons] at hs
      by_cases h : p.fst ≤ q.fst
      · simp only [insertFieldOrd, if_pos h]
        rw [List.pairwise_cons]
        refine ⟨?_, List.pairwise_cons.mpr hs⟩
        intro x hx
        rcases List.mem_cons.mp hx with he | hm
        · subst he; exact h
        · exact le_trans h (hs.1 x hm)
      · simp only [insertFieldOrd, if_neg h]
        rw [List.pairwise_cons]
        refine ⟨?_, ih hs.2⟩
        intro x hx
        rcases List.mem_cons.mp ((perm_insertFieldOrd p rest).mem_iff.mp hx) with he | hm
        · subst he; exact le_of_not_le h
        · exact hs.1 x hm

theorem sorted_sortFields (l : List (String × JSValue)) :
    List.Pairwise (fun a b : String × JSValue => a.fst ≤ b.fst) (sortFields l) := by
  induction l with
  | nil => simp [sortFields]
  | cons p rest ih => exact sorted_insertFieldOrd p (sortFields rest) ih

theorem sorted_nodup_ext (A B : List (String × JSValue))
    (hsA : List.Pairwise (fun a b : String × JSValue => a.fst ≤ b.fst) A)
    (hsB : List.Pairwise (fun a b : String × JSValue => a.fst ≤ b.fst) B)
    (hndA : (A.map Prod.fst).Nodup) (hndB : (B.map Prod.fst).Nodup)
    (hmem : ∀ p, p ∈ A ↔ p ∈ B) : A = B := by
  haveI : IsAntisymm (String × JSValue) (fun a b => a.fst < b.fst) :=
    ⟨fun a b h1 h2 => absurd (lt_trans h1 h2) (lt_irrefl _)⟩
  have hneA : List.Pairwise (fun a b : String × JSValue => a.fst ≠ b.fst) A :=
    List.pairwise_map.mp hndA
  have hneB : List.Pairwise (fun a b : String × JSValue => a.fst ≠ b.fst) B :=
    List.pairwise_map.mp hndB
  have hltA : List.Pairwise (fun a b : String × JSValue => a.fst < b.fst) A :=
    (hsA.and hneA).imp (fun h => lt_of_le_of_ne h.1 h.2)
  have hltB : List.Pairwise (fun a b : String × JSValue => a.fst < b.fst) B :=
    (hsB.and hneB).imp (fun h => lt_of_le_of_ne h.1 h.2)
  have hperm : List.Perm A B :=
    (List.perm_ext_iff_of_nodup (hndA.of_map _) (hndB.of_map _)).mpr hmem
  exact List.eq_of_perm_of_sorted hperm hltA hltB

theorem canonObj_ext (i j : Nat) (A B : List (String × JSValue))
    (hndA : (A.map Prod.fst).Nodup) (hndB : (B.map Prod.fst).Nodup)
    (h : ∀ k, (lookupField A k).map canon = (lookupField B k).map canon) :
    canon (vObj i A) = canon (vObj j B) := by
  have hkA : ((canonFields A).map Prod.fst).Nodup := by rw [keys_canonFields]; exact hndA
  have hkB : ((canonFields B).map Prod.fst).Nodup := by rw [keys_canonFields]; exact hndB
  have hsortA : ((sortFields (canonFields A)).map Prod.fst).Nodup :=
    (((perm_sortFields (canonFields A)).map Prod.fst).nodup_iff).mpr hkA
  have hsortB : ((sortFields (canonFields B)).map Prod.fst).Nodup :=
    (((perm_sortFields (canonFields B)).map Prod.fst).nodup_iff).mpr hkB
  simp only [canon]
  congr 1
  apply sorted_nodup_ext _ _ (sorted_sortFields _) (sorted_sortFields _) hsortA hsortB
  intro p
  rw [(perm_sortFields (canonFields A)).mem_iff, (perm_sortFields (canonFields B)).mem_iff]
  constructor
  · intro hm
    have hl : lookupField (canonFields A) p.fst = some p.snd :=
      lookupField_eq_some_of_mem _ _ _ hkA (by simpa using hm)
    rw [lookup_canonFields] at hl
    rw [h p.fst] at hl
    rw [← lookup_canonFields] at hl
    have := mem_of_lookupField_eq_some _ _ _ hl
    simpa using this
  · intro hm
    have hl : lookupField (canonFields B) p.fst = some p.snd :=
      lookupField_eq_some_of_mem _ _ _ hkB (by simpa using hm)
    rw [lookup_canonFields] at hl
    rw [← h p.fst] at hl
    rw [← lookup_canonFields] at hl
    have := mem_of_lookupField_eq_some _ _ _ hl
    simpa using this

theorem objAssign_empty_src (v src : JSValue) (h : ownEntries src = []) :
    objAssign v src = v := by
  cases v <;> simp [objAssign, assignFields, h]

theorem mergeFields_falsy (t : JSValue) (h : truthy t = false) :
    ∀ fs : List (String × JSValue), mergeFields t fs = fs := by
  intro fs
  induction fs with
  | nil => simp [mergeFields]
  | cons p rest ih =>
      obtain ⟨k, v⟩ := p
      simp [mergeFields, mval, h, ih]

theorem mergeElems_falsy (t : JSValue) (h : truthy t = false) :
    ∀ (i : Nat) (xs : List JSValue), mergeElems t i xs = xs := by
  intro i xs
  induction xs generalizing i with
  | nil => simp [mergeElems]
  | cons x rest ih =>
      simp [mergeElems, h, ih]

theorem MERGE_falsy (t s : JSValue) (h : truthy t = false) : MERGE t s = (t, s) := by
  have hOA : ∀ s2, objAssign t s2 = t := by
    intro s2
    cases t <;> simp [objAssign] <;> simp [truthy] at h
  cases s <;> simp [MERGE, mergeFields_falsy t h, mergeElems_falsy t h, hOA]

theorem mergeFields_getProp_undef (t : JSValue) (hg : ∀ k2, getProp t k2 = vUndef) :
    ∀ fs : List (String × JSValue), mergeFields t fs = fs := by
  intro fs
  induction fs with
  | nil => simp [mergeFields]
  | cons p rest ih =>
      obtain ⟨k, v⟩ := p
      by_cases hc : (truthy t && isObjectInstance v) = true
      · simp [mergeFields, mval, hc, hg k, MERGE_falsy vUndef v rfl,
          objAssign_empty_src v vUndef rfl, ih]
      · simp [mergeFields, mval, hc, ih]

theorem mergeElems_getProp_undef (t : JSValue) (hg : ∀ k2, getProp t k2 = vUndef) :
    ∀ (i : Nat) (xs : List JSValue), mergeElems t i xs = xs := by
  intro i xs
  induction xs generalizing i with
  | nil => simp [mergeElems]
  | cons x rest ih =>
      by_cases hc : (truthy t && isObjectInstance x) = true
      · simp [mergeElems, hc, hg, MERGE_falsy vUndef x rfl,
          objAssign_empty_src x vUndef rfl, ih]
      · simp [mergeElems, hc, ih]

theorem lookup_mergeFields (t : JSValue) (sfs : List (String × JSValue)) (k : String) :
    lookupField (mergeFields t sfs) k = (lookupField sfs k).map (fun v => mval t k v) := by
  induction sfs with
  | nil => simp [mergeFields, lookupField]
  | cons p rest ih =>
      obtain ⟨k0, v0⟩ := p
      by_cases h : k0 = k
      · subst h; simp [mergeFields, lookupField]
      · simp [mergeFields, lookupField, h, ih]

theorem keys_mergeFields (t : JSValue) (sfs : List (String × JSValue)) :
    (mergeFields t sfs).map Prod.fst = sfs.map Prod.fst := by
  induction sfs with
  | nil => simp [mergeFields]
  | cons p rest ih =>
      obtain ⟨k0, v0⟩ := p
      simp [mergeFields, ih]

theorem mergeCompat_elim (tid sid : Nat) (tfs sfs : List (String × JSValue))
    (h : mergeCompat (vObj tid tfs) (vObj sid sfs) = true) :
    nodupKeys tfs = true ∧ nodupKeys sfs = true ∧ mergeCompatFields tfs sfs = true := by
  simpa [mergeCompat, Bool.and_eq_true, and_assoc] using h

theorem mergeCompatFields_entry (tfs : List (String × JSValue)) :
    ∀ (sfs : List (String × JSValue)), mergeCompatFields tfs sfs = true →
    ∀ (k : String) (v : JSValue), (k, v) ∈ sfs → entryOk tfs k v = true := by
  intro sfs
  induction sfs with
  | nil => intro _ k v hm; simp at hm
  | cons p rest ih =>
      intro h k v hm
      obtain ⟨k0, v0⟩ := p
      rw [mergeCompatFields, Bool.and_eq_true] at h
      rcases List.mem_cons.mp hm with he | hmem
      · cases he; exact h.1
      · exact ih h.2 k v hmem

theorem specMergeInto_cons (tfs : List (String × JSValue)) (k : String) (v : JSValue)
    (rest : List (String × JSValue)) :
    specMergeInto tfs ((k, v) :: rest)
      = specMergeInto (setField tfs k (sval (lookupField tfs k) v)) rest := by
  match v with
  | vObj c d =>
      cases hl : lookupField tfs k with
      | none => simp [specMergeInto, sval, hl]
      | some tv2 => cases tv2 <;> simp [specMergeInto, sval, hl]
  | vNull => simp [specMergeInto, sval]
  | vUndef => simp [specMergeInto, sval]
  | vBool b => simp [specMergeInto, sval]
  | vNum n => simp [specMergeInto, sval]
  | vStr s => simp [specMergeInto, sval]
  | vArr a b => simp [specMergeInto, sval]
  | vDate a b => simp [specMergeInto, sval]
  | vRegExp a b c => simp [specMergeInto, sval]
  | vFile a => simp [specMergeInto, sval]
  | vFileList a => simp [specMergeInto, sval]

theorem lookup_specMergeInto (sfs : List (String × JSValue)) :
    ∀ (tfs : List (String × JSValue)) (k : String), (sfs.map Prod.fst).Nodup →
    lookupField (specMergeInto tfs sfs) k
      = (match lookupField sfs k with
         | some v => some (sval (lookupField tfs k) v)
         | none => lookupField tfs k) := by
  induction sfs with
  | nil => intro tfs k _; simp [specMergeInto, lookupField]
  | cons p rest ih =>
      intro tfs k hnd
      obtain ⟨k0, v0⟩ := p
      rw [List.map_cons, List.nodup_cons] at hnd
      rw [specMergeInto_cons, ih _ _ hnd.2]
      by_cases h : k0 = k
      · subst h
        have hnone : lookupField rest k0 = none := (lookupField_eq_none_iff _ _).mpr hnd.1
        rw [hnone]
        simp [lookupField, lookupField_setField]
      · simp only [lookupField, if_neg h]
        cases hlk : lookupField rest k
        · simp [lookupField_setField, Ne.symm h]
        · simp [lookupField_setField, Ne.symm h]

theorem nodup_specMergeInto (sfs : List (String × JSValue)) :
    ∀ tfs : List (String × JSValue), (tfs.map Prod.fst).Nodup →
    ((specMergeInto tfs sfs).map Prod.fst).Nodup := by
  induction sfs with
  | nil => intro tfs h; simpa [specMergeInto] using h
  | cons p rest ih =>
      intro tfs h
      obtain ⟨k0, v0⟩ := p
      rw [specMergeInto_cons]
      exact ih _ (nodup_setField _ _ _ h)

theorem sval_not_obj (tv : Option JSValue) (v : JSValue)
    (hv : ∀ (c : Nat) (d : List (String × JSValue)), v ≠ vObj c d) : sval tv v = v := by
  match tv, v with
  | none, v2 => cases v2 <;> simp [sval]
  | some tv2, v2 =>
      cases tv2 <;> cases v2 <;> first | (exact absurd rfl (hv _ _)) | simp [sval]

theorem mergeCompat_shapes (t s : JSValue) (h : mergeCompat t s = true) :
    ∃ tid tfs sid sfs, t = vObj tid tfs ∧ s = vObj sid sfs := by
  cases t <;> cases s <;> simp_all [mergeCompat]

theorem merge_canon_aux (n : Nat) :
    ∀ (s t : JSValue), sizeOf s ≤ n → mergeCompat t s = true →
    canon (objAssign t (MERGE t s).snd) = canon (specMerge t s)
    ∧ canon (objAssign (MERGE t s).snd (objAssign t (MERGE t s).snd)) = canon (specMerge t s) := by
  induction n with
  | zero =>
      intro s t hsz h
      exfalso
      cases s <;> simp at hsz
  | succ n ih =>
      intro s t hsz h
      obtain ⟨tid, tfs, sid, sfs, ht, hs⟩ := mergeCompat_shapes t s h
      subst ht; subst hs
      obtain ⟨hndT, hndS, hcf⟩ := mergeCompat_elim tid sid tfs sfs h
      have hndT' := (nodupKeys_iff tfs).mp hndT
      have hndS' := (nodupKeys_iff sfs).mp hndS
      have hkeysM : ((mergeFields (vObj tid tfs) sfs).map Prod.fst).Nodup := by
        rw [keys_mergeFields]; exact hndS'
      have hpw : ∀ k,
          (lookupField (assignFields tfs (mergeFields (vObj tid tfs) sfs)) k).map canon
            = (lookupField (specMergeInto tfs sfs) k).map canon := by
        intro k
        rw [lookupField_assignFields _ tfs k hkeysM,
          lookup_specMergeInto sfs tfs k hndS', lookup_mergeFields]
        cases hlk : lookupField sfs k with
        | none => simp
        | some v =>
            simp only [Option.map_some']
            have hentry : entryOk tfs k v = true :=
              mergeCompatFields_entry tfs sfs hcf k v (mem_of_lookupField_eq_some sfs k v hlk)
            cases v with
            | vNull =>
                rw [sval_not_obj _ _ (fun c d hc => JSValue.noConfusion hc)]
                simp [mval, isObjectInstance]
            | vUndef =>
                rw [sval_not_obj _ _ (fun c d hc => JSValue.noConfusion hc)]
                simp [mval, isObjectInstance]
            | vBool b =>
                rw [sval_not_obj _ _ (fun c d hc => JSValue.noConfusion hc)]
                simp [mval, isObjectInstance]
            | vNum m =>
                rw [sval_not_obj _ _ (fun c d hc => JSValue.noConfusion hc)]
                simp [mval, isObjectInstance]
            | vStr st =>
                rw [sval_not_obj _ _ (fun c d hc => JSValue.noConfusion hc)]
                simp [mval, isObjectInstance]
            | vArr a b =>
                have hg : ∀ k2, getProp (getProp (vObj tid tfs) k) k2 = vUndef := by
                  cases hlt : lookupField tfs k with
                  | none => intro k2; simp [getProp, hlt]
                  | some tv2 =>
                      have hsp : specialTvOk (some tv2) = true := by
                        simpa [entryOk, hlt] using hentry
                      intro k2
                      cases tv2 <;> simp [getProp, hlt] <;> simp [specialTvOk] at hsp
                rw [sval_not_obj _ _ (fun c d hc => JSValue.noConfusion hc)]
                simp [mval, truthy, isObjectInstance, MERGE, mergeElems_getProp_undef _ hg,
                  objAssign]
            | vDate a b =>
                rw [sval_not_obj _ _ (fun c d hc => JSValue.noConfusion hc)]
                simp [mval, truthy, isObjectInstance, MERGE, objAssign]
            | vRegExp a b c =>
                rw [sval_not_obj _ _ (fun c d hc => JSValue.noConfusion hc)]
                simp [mval, truthy, isObjectInstance, MERGE, objAssign]
            | vFile a =>
                rw [sval_not_obj _ _ (fun c d hc => JSValue.noConfusion hc)]
                simp [mval, truthy, isObjectInstance, MERGE, objAssign]
            | vFileList a =>
                rw [sval_not_obj _ _ (fun c d hc => JSValue.noConfusion hc)]
                simp [mval, truthy, isObjectInstance, MERGE, objAssign]
            | vObj c d =>
                cases hlt : lookupField tfs k with
                | none =>
                    have hgp : getProp (vObj tid tfs) k = vUndef := by simp [getProp, hlt]
                    simp [mval, truthy, isObjectInstance, hgp, MERGE_falsy vUndef _ rfl,
                      objAssign_empty_src _ vUndef rfl, sval]
                | some tv2 =>
                    have hgp : getProp (vObj tid tfs) k = tv2 := by simp [getProp, hlt]
                    cases tv2 with
                    | vObj a b =>
                        have hcompat2 : mergeCompat (vObj a b) (vObj c d) = true := by
                          simpa [entryOk, hlt] using hentry
                        have hmem := mem_of_lookupField_eq_some sfs k (vObj c d) hlk
                        have hszv : sizeOf (vObj c d : JSValue) ≤ n := by
                          have h1 := List.sizeOf_lt_of_mem hmem
                          simp at h1 hsz ⊢
                          omega
                        have hrec := (ih (vObj c d) (vObj a b) hszv hcompat2).2
                        have hfst : (MERGE (vObj a b) (vObj c d)).fst
                            = objAssign (vObj a b) (MERGE (vObj a b) (vObj c d)).snd := by
                          simp [MERGE]
                        simp only [mval, truthy, isObjectInstance, hgp, Bool.and_self,
                          if_pos, sval]
                        rw [hfst]
                        exact congrArg some hrec
                    | vArr a2 b2 => simp [entryOk, hlt] at hentry
                    | vStr st =>
                        have hst : st = "" := by simpa [entryOk, hlt] using hentry
                        subst hst
                        simp [mval, truthy, isObjectInstance, hgp,
                          MERGE_falsy (vStr "") _ (by simp [truthy]),
                          objAssign_empty_src _ (vStr "") (by simp [ownEntries]), sval]
                    | vNull =>
                        simp [mval, truthy, isObjectInstance, hgp,
                          MERGE_falsy vNull _ rfl, objAssign_empty_src _ vNull rfl, sval]
                    | vUndef =>
                        simp [mval, truthy, isObjectInstance, hgp,
                          MERGE_falsy vUndef _ rfl, objAssign_empty_src _ vUndef rfl, sval]
                    | vBool b2 =>
                        simp [mval, truthy, isObjectInstance, hgp, MERGE,
                          mergeFields_getProp_undef (vBool b2) (fun k2 => rfl),
                          objAssign, ownEntries, assignFields, sval]
                    | vNum m2 =>
                        simp [mval, truthy, isObjectInstance, hgp, MERGE,
                          mergeFields_getProp_undef (vNum m2) (fun k2 => rfl),
                          objAssign, ownEntries, assignFields, sval]
                    | vDate a2 b2 =>
                        simp [mval, truthy, isObjectInstance, hgp, MERGE,
                          mergeFields_getProp_undef (vDate a2 b2) (fun k2 => rfl),
                          objAssign, ownEntries, assignFields, sval]
                    | vRegExp a2 b2 c2 =>
                        simp [mval, truthy, isObjectInstance, hgp, MERGE,
                          mergeFields_getProp_undef (vRegExp a2 b2 c2) (fun k2 => rfl),
                          objAssign, ownEntries, assignFields, sval]
                    | vFile a2 =>
                        simp [mval, truthy, isObjectInstance, hgp, MERGE,
                          mergeFields_getProp_undef (vFile a2) (fun k2 => rfl),
                          objAssign, ownEntries, assignFields, sval]
                    | vFileList a2 =>
                        simp [mval, truthy, isObjectInstance, hgp, MERGE,
                          mergeFields_getProp_undef (vFileList a2) (fun k2 => rfl),
                          objAssign, ownEntries, assignFields, sval]
      have hsnd : (MERGE (vObj tid tfs) (vObj sid sfs)).snd
          = vObj sid (mergeFields (vObj tid tfs) sfs) := by simp [MERGE]
      have hspec : specMerge (vObj tid tfs) (vObj sid sfs)
          = vObj tid (specMergeInto tfs sfs) := by simp [specMerge]
      have hoa : objAssign (vObj tid tfs) (vObj sid (mergeFields (vObj tid tfs) sfs))
          = vObj tid (assignFields tfs (mergeFields (vObj tid tfs) sfs)) := by
        simp [objAssign, ownEntries]
      have hndX : ((assignFields tfs (mergeFields (vObj tid tfs) sfs)).map Prod.fst).Nodup :=
        nodup_assignFields _ tfs hndT'
      constructor
      · rw [hsnd, hspec, hoa]
        exact canonObj_ext tid tid _ _ hndX (nodup_specMergeInto sfs tfs hndT') hpw
      · rw [hsnd, hspec, hoa]
        have hoa2 : objAssign (vObj sid (mergeFields (vObj tid tfs) sfs))
            (vObj tid (assignFields tfs (mergeFields (vObj tid tfs) sfs)))
            = vObj sid (assignFields (mergeFields (vObj tid tfs) sfs)
                (assignFields tfs (mergeFields (vObj tid tfs) sfs))) := by
          simp [objAssign, ownEntries]
        rw [hoa2]
        apply canonObj_ext
        · exact nodup_assignFields _ _ hkeysM
        · exact nodup_specMergeInto sfs tfs hndT'
        · intro k
          rw [lookupField_assignFields _ _ k hndX]
          have hXM : (match lookupField (assignFields tfs (mergeFields (vObj tid tfs) sfs)) k with
                      | some w => some w
                      | none => lookupField (mergeFields (vObj tid tfs) sfs) k)
                     = lookupField (assignFields tfs (mergeFields (vObj tid tfs) sfs)) k := by
            cases hx : lookupField (assignFields tfs (mergeFields (vObj tid tfs) sfs)) k with
            | some w => rfl
            | none =>
                have hkx : k ∉ (assignFields tfs (mergeFields (vObj tid tfs) sfs)).map Prod.fst :=
                  (lookupField_eq_none_iff _ _).mp hx
                have hkM : k ∉ (mergeFields (vObj tid tfs) sfs).map Prod.fst := fun hm2 =>
                  hkx ((mem_keys_assignFields _ tfs k).mpr (Or.inr hm2))
                simp [(lookupField_eq_none_iff _ _).mpr hkM]
          rw [hXM]
          exact hpw k

/-- Claim C4 (corrected): on claim-shaped inputs (plain objects, see
mergeCompat) MERGE returns the target object (same reference identity),
whose content is exactly the spec's recursive deep merge — source wins
on scalar conflicts, overlapping nested mappings merge recursively —
up to object-key order (canonical forms are equal).  But an absent
(undefined or null) target is NOT treated as an empty acceptor: the
merged content is assigned into a discarded fresh object and MERGE
returns the absent target unchanged. -/
theorem claim_C4 (tid sid : Nat) (tfs sfs : List (String × JSValue))
    (h : mergeCompat (vObj tid tfs) (vObj sid sfs) = true) :
    (∃ fs2, (MERGE (vObj tid tfs) (vObj sid sfs)).fst = vObj tid fs2)
    ∧ canon (MERGE (vObj tid tfs) (vObj sid sfs)).fst
        = canon (specMerge (vObj tid tfs) (vObj sid sfs))
    ∧ (∀ s2 : JSValue, MERGE vUndef s2 = (vUndef, s2) ∧ MERGE vNull s2 = (vNull, s2)) := by
  have hfst : (MERGE (vObj tid tfs) (vObj sid sfs)).fst
      = objAssign (vObj tid tfs) (MERGE (vObj tid tfs) (vObj sid sfs)).snd := by
    simp [MERGE]
  refine ⟨?_, ?_, fun s2 => ⟨MERGE_falsy vUndef s2 rfl, MERGE_falsy vNull s2 rfl⟩⟩
  · rw [hfst]
    exact ⟨assignFields tfs (ownEntries (MERGE (vObj tid tfs) (vObj sid sfs)).snd),
      by simp [objAssign]⟩
  · rw [hfst]
    exact (merge_canon_aux (sizeOf (vObj sid sfs : JSValue)) (vObj sid sfs) (vObj tid tfs)
      le_rfl h).1

/-- Witness for claim C4 at concrete objects with a scalar conflict and
an overlapping nested mapping. -/
theorem claim_C4_witness :
    (∃ fs2, (MERGE (vObj 0 [("a", vNum 1), ("n", vObj 1 [("x", vNum 1)])])
        (vObj 2 [("a", vNum 2), ("n", vObj 3 [("x", vNum 5), ("y", vNum 7)])])).fst
      = vObj 0 fs2)
    ∧ canon (MERGE (vObj 0 [("a", vNum 1), ("n", vObj 1 [("x", vNum 1)])])
        (vObj 2 [("a", vNum 2), ("n", vObj 3 [("x", vNum 5), ("y", vNum 7)])])).fst
      = canon (specMerge (vObj 0 [("a", vNum 1), ("n", vObj 1 [("x", vNum 1)])])
        (vObj 2 [("a", vNum 2), ("n", vObj 3 [("x", vNum 5), ("y", vNum 7)])])) := by
  have h := claim_C4 0 2 [("a", vNum 1), ("n", vObj 1 [("x", vNum 1)])]
    [("a", vNum 2), ("n", vObj 3 [("x", vNum 5), ("y", vNum 7)])]
    (by simp [mergeCompat, mergeCompatFields, entryOk, nodupKeys, lookupField,
      specialTvOk, List.contains])
  exact ⟨h.1, h.2.1⟩

/-- Counterexample to claim C4 as stated: with an absent target the call
does not yield a mapping containing the source's keys — it returns
undefined, and the source's key a is not reachable on the result. -/
theorem claim_C4_cex :
    (MERGE vUndef (vObj 1 [("a", vNum 1)])).fst = vUndef
    ∧ getProp (MERGE vUndef (vObj 1 [("a", vNum 1)])).fst "a" = vUndef := by
  rw [MERGE_falsy vUndef _ rfl]
  exact ⟨rfl, rfl⟩

/-- Claim C9 (confirmed): MERGE also mutates its second argument — for a
key whose source value is a nested object and whose target value is a
nested object with a sub-key the source lacks, after the call the
source's entry contains that sub-key (copied from the target via
Object.assign into source[key]), observably changing the source. -/
theorem claim_C9 (tid sid tkid skid : Nat)
    (tfs sfs tkfs skfs : List (String × JSValue)) (k m : String) (w : JSValue)
    (hsk : lookupField sfs k = some (vObj skid skfs))
    (htk : lookupField tfs k = some (vObj tkid tkfs))
    (htkn : nodupKeys tkfs = true) (hskn : nodupKeys skfs = true)
    (hm : lookupField tkfs m = some w) (hmabs : lookupField skfs m = none) :
    getProp (getProp (MERGE (vObj tid tfs) (vObj sid sfs)).snd k) m = w
    ∧ getProp (vObj skid skfs) m = vUndef := by
  constructor
  · have hndtk := (nodupKeys_iff tkfs).mp htkn
    have hndsk := (nodupKeys_iff skfs).mp hskn
    have hkeysM2 : ((mergeFields (vObj tkid tkfs) skfs).map Prod.fst).Nodup := by
      rw [keys_mergeFields]; exact hndsk
    have hndX2 : ((assignFields tkfs (mergeFields (vObj tkid tkfs) skfs)).map Prod.fst).Nodup :=
      nodup_assignFields _ tkfs hndtk
    have hMnone : lookupField (mergeFields (vObj tkid tkfs) skfs) m = none := by
      rw [lookup_mergeFields, hmabs]; rfl
    have hX2 : lookupField (assignFields tkfs (mergeFields (vObj tkid tkfs) skfs)) m
        = some w := by
      rw [lookupField_assignFields _ tkfs m hkeysM2, hMnone, hm]
    have hgp : getProp (vObj tid tfs) k = vObj tkid tkfs := by simp [getProp, htk]
    have hsnd : (MERGE (vObj tid tfs) (vObj sid sfs)).snd
        = vObj sid (mergeFields (vObj tid tfs) sfs) := by simp [MERGE]
    have hlk : lookupField (mergeFields (vObj tid tfs) sfs) k
        = some (mval (vObj tid tfs) k (vObj skid skfs)) := by
      rw [lookup_mergeFields, hsk]; rfl
    have hmv : mval (vObj tid tfs) k (vObj skid skfs)
        = vObj skid (assignFields (mergeFields (vObj tkid tkfs) skfs)
            (assignFields tkfs (mergeFields (vObj tkid tkfs) skfs))) := by
      simp [mval, truthy, isObjectInstance, hgp, MERGE, objAssign, ownEntries]
    rw [hsnd]
    simp only [getProp]
    rw [hlk]
    simp only [Option.getD_some]
    rw [hmv]
    simp only [getProp]
    rw [lookupField_assignFields _ _ m hndX2, hX2]
    rfl
  · simp [getProp, hmabs]

/-- Witness for claim C9: the target's nested sub-key a appears on the
source's nested object after the merge. -/
theorem claim_C9_witness :
    getProp (getProp (MERGE (vObj 0 [("n", vObj 1 [("a", vNum 1)])])
        (vObj 2 [("n", vObj 3 [("b", vNum 2)])])).snd "n") "a" = vNum 1
    ∧ getProp (vObj 3 [("b", vNum 2)]) "a" = vUndef :=
  claim_C9 0 2 1 3 [("n", vObj 1 [("a", vNum 1)])] [("n", vObj 3 [("b", vNum 2)])]
    [("a", vNum 1)] [("b", vNum 2)] "n" "a" (vNum 1) rfl rfl rfl rfl rfl rfl
